import Mathlib

/-!
Verification of the `colorlook` palette-extraction engine.

This file shallowly embeds the Rust sources under
`src/src/utils/auto_palette/` into Lean 4 and settles the frozen claims
about them.  Machine floats (`f32`/`f64`) are idealised as real numbers;
`usize` becomes `Nat`.  Rust's `BinaryHeap` is modelled by a list whose
pop operation removes the first maximal element (a fixed deterministic
tie-break), Rust's `sort_unstable_by` by an insertion sort, and Rust's
`HashMap`/`HashSet` iteration by insertion order; every claim settled
below is insensitive to those tie-break choices, as noted at each use.
Loops whose termination depends on run-time data receive an explicit
fuel parameter.
-/

open scoped BigOperators

namespace ColorLook

/-! ## Scalar helpers (math/number.rs and num_traits idealised over ℝ) -/

/-- Largest finite `f64` value, used by the source as an "infinity" sentinel
(`F::max_value()` in `linkage.rs` and `kdtree/search.rs`). -/
noncomputable def fMax : ℝ := (2 ^ 53 - 1) * 2 ^ 971

/-- Rust `Clamp::clamp` from `math/number.rs` (the `assert!(min <= max)` holds
at every call site reached by the claims). -/
noncomputable def clampF (x lo hi : ℝ) : ℝ :=
  if x < lo then lo else if x > hi then hi else x

/-- Rust `Normalize::normalize` from `math/number.rs`. -/
noncomputable def normalizeF (x lo hi : ℝ) : ℝ :=
  (clampF x lo hi - lo) / (hi - lo)

/-- Rust `Normalize::denormalize` from `math/number.rs`. -/
noncomputable def denormalizeF (x lo hi : ℝ) : ℝ :=
  clampF (x * (hi - lo) + lo) lo hi

/-- The two-argument arctangent, as computed by `f64::atan2`. -/
noncomputable def atan2 (y x : ℝ) : ℝ :=
  if 0 < x then Real.arctan (y / x)
  else if x < 0 then
    (if 0 ≤ y then Real.arctan (y / x) + Real.pi else Real.arctan (y / x) - Real.pi)
  else
    (if 0 < y then Real.pi / 2 else if y < 0 then -(Real.pi / 2) else 0)

/-- Degree-to-radian conversion (`f64::to_radians`). -/
noncomputable def toRadians (x : ℝ) : ℝ := x * Real.pi / 180

/-- Radian-to-degree conversion (`f64::to_degrees`). -/
noncomputable def toDegrees (x : ℝ) : ℝ := x * 180 / Real.pi

/-- Real cube root (`f64::cbrt`), odd extension of `rpow (1/3)`. -/
noncomputable def cbrt (x : ℝ) : ℝ :=
  if x < 0 then -((-x) ^ ((1 : ℝ) / 3)) else x ^ ((1 : ℝ) / 3)

/-- Rounding half away from zero (`f64::round`); the source only applies it
to non-negative values, where it agrees with `⌊x + 1/2⌋`. -/
noncomputable def rustRound (x : ℝ) : ℤ :=
  if 0 ≤ x then ⌊x + 1 / 2⌋ else -⌊-x + 1 / 2⌋

/-! ## Colors (color/rgb.rs, color/xyz.rs, color/lab.rs, color/white_point.rs) -/

/-- Struct `RGB` from `color/rgb.rs`; the three 8-bit channels are carried
as naturals. -/
structure RGB where
  r : ℕ
  g : ℕ
  b : ℕ
  deriving DecidableEq

/-- Struct `XYZ` from `color/xyz.rs` (white point fixed to the default D65,
the only one in the source). -/
structure XYZ where
  x : ℝ
  y : ℝ
  z : ℝ

/-- Struct `Lab` from `color/lab.rs`. -/
structure Lab where
  l : ℝ
  a : ℝ
  b : ℝ

/-- D65 white point `x` (`white_point.rs`). -/
noncomputable def D65x : ℝ := 0.95046

/-- D65 white point `y` (`white_point.rs`). -/
noncomputable def D65y : ℝ := 1.0

/-- D65 white point `z` (`white_point.rs`). -/
noncomputable def D65z : ℝ := 1.08906

/-- `XYZ::new`, which clamps each component to its fixed range. -/
noncomputable def XYZ.new (x y z : ℝ) : XYZ :=
  ⟨clampF x 0 0.950456, clampF y 0 1.0, clampF z 0 1.088644⟩

/-- `Lab::new`, which clamps each component to its physiological range. -/
noncomputable def Lab.new (l a b : ℝ) : Lab :=
  ⟨clampF l 0 100, clampF a (-128) 127, clampF b (-128) 127⟩

/-- The sRGB inverse-gamma helper inside `From<&RGB> for XYZ`. -/
noncomputable def srgbDecode (v : ℝ) : ℝ :=
  if v ≤ 0.04045 then v / 12.92 else ((v + 0.055) / 1.055) ^ (2.4 : ℝ)

/-- `From<&RGB> for XYZ` (`color/xyz.rs`). -/
noncomputable def rgbToXyz (rgb : RGB) : XYZ :=
  let r := srgbDecode ((rgb.r : ℝ) / 255)
  let g := srgbDecode ((rgb.g : ℝ) / 255)
  let b := srgbDecode ((rgb.b : ℝ) / 255)
  XYZ.new (0.412391 * r + 0.357584 * g + 0.180481 * b)
    (0.212639 * r + 0.715169 * g + 0.072192 * b)
    (0.019331 * r + 0.119195 * g + 0.950532 * b)

/-- `From<&XYZ> for Lab` (`color/lab.rs`). -/
noncomputable def xyzToLab (xyz : XYZ) : Lab :=
  let epsilon : ℝ := ((6 : ℝ) / 29) ^ (3 : ℕ)
  let kappa : ℝ := 841 / 108
  let delta : ℝ := 4 / 29
  let f : ℝ → ℝ := fun t => if t > epsilon then cbrt t else kappa * t + delta
  let fx := f (xyz.x / D65x)
  let fy := f (xyz.y / D65y)
  let fz := f (xyz.z / D65z)
  Lab.new (116 * fy - 16) (500 * (fx - fy)) (200 * (fy - fz))

/-- `From<&Lab> for XYZ` (`color/xyz.rs`). -/
noncomputable def labToXyz (lab : Lab) : XYZ :=
  let epsilon : ℝ := 6 / 29
  let kappa : ℝ := 108 / 841
  let delta : ℝ := 4 / 29
  let f : ℝ → ℝ := fun t => if t > epsilon then t ^ (3 : ℕ) else kappa * (t - delta)
  let l2 := (lab.l + 16) / 116
  let a2 := lab.a / 500
  let b2 := lab.b / 200
  XYZ.new (D65x * f (l2 + a2)) (D65y * f l2) (D65z * f (l2 - b2))

/-- `From<&XYZ> for RGB` (`color/rgb.rs`); `to_u8` never fails on the clamped
range, so the `unwrap_or_else` default is not reachable. -/
noncomputable def xyzToRgb (xyz : XYZ) : RGB :=
  let f : ℝ → ℝ := fun v =>
    if v ≤ 0.0031308 then 12.92 * v else 1.055 * v ^ ((1 : ℝ) / 2.4) - 0.055
  let fr := f (3.24097 * xyz.x - 1.537383 * xyz.y - 0.498611 * xyz.z)
  let fg := f (-0.969244 * xyz.x + 1.875968 * xyz.y + 0.041555 * xyz.z)
  let fb := f (0.05563 * xyz.x - 0.203977 * xyz.y + 1.056972 * xyz.z)
  let denorm : ℝ → ℕ := fun v => (rustRound (clampF (v * 255) 0 255)).toNat
  ⟨denorm fr, denorm fg, denorm fb⟩

/-! ## Color difference (color/delta_e.rs) -/

/-- The CIE76 formula (`cie76` in `color/delta_e.rs`). -/
noncomputable def cie76 (lab1 lab2 : Lab) : ℝ :=
  Real.sqrt ((lab1.l - lab2.l) ^ (2 : ℕ) + (lab1.a - lab2.a) ^ (2 : ℕ) +
    (lab1.b - lab2.b) ^ (2 : ℕ))

/-- The hue-angle helper closure `h_prime` inside `ciede2000`. -/
noncomputable def hPrime (x y : ℝ) : ℝ :=
  if x = 0 ∧ y = 0 then 0
  else
    let angle := toDegrees (atan2 y x)
    if angle < 0 then angle + 360 else angle

/-- Chroma `sqrt(a^2 + b^2)`, used repeatedly inside `ciede2000`. -/
noncomputable def chromaOf (a b : ℝ) : ℝ :=
  Real.sqrt (a ^ (2 : ℕ) + b ^ (2 : ℕ))

/-- The `G` rotation factor of `ciede2000`. -/
noncomputable def gFactor (cBar : ℝ) : ℝ :=
  Real.sqrt (cBar ^ (7 : ℕ) / (cBar ^ (7 : ℕ) + (25 : ℝ) ^ (7 : ℕ)))

/-- The `delta_h_prime` branch of `ciede2000` (zero when either chroma is
zero, otherwise the wrapped hue difference). -/
noncomputable def deltaHueSmall (c1Prime c2Prime h1Prime h2Prime : ℝ) : ℝ :=
  if c1Prime = 0 ∨ c2Prime = 0 then 0
  else
    let delta := h2Prime - h1Prime
    if |delta| ≤ 180 then delta
    else if h2Prime ≤ h1Prime then delta + 360
    else delta - 360

/-- The `h_bar_prime` branch of `ciede2000`. -/
noncomputable def hBarPrimeOf (h1Prime h2Prime : ℝ) : ℝ :=
  if |h1Prime - h2Prime| > 180 then (h1Prime + h2Prime + 360) / 2
  else (h1Prime + h2Prime) / 2

/-- The `T` factor of `ciede2000`. -/
noncomputable def tFactor (hBarPrime : ℝ) : ℝ :=
  1 - 0.17 * Real.cos (toRadians (hBarPrime - 30))
    + 0.24 * Real.cos (toRadians (2 * hBarPrime))
    + 0.32 * Real.cos (toRadians (3 * hBarPrime + 6))
    - 0.20 * Real.cos (toRadians (4 * hBarPrime - 63))

/-- The rotation term `R_T` of `ciede2000`. -/
noncomputable def rtFactor (cBarPrime hBarPrime : ℝ) : ℝ :=
  -2 * gFactor cBarPrime *
    Real.sin (toRadians (60 * Real.exp (-(((hBarPrime - 275) / 25) ^ (2 : ℕ)))))

/-- The CIEDE2000 formula (`ciede2000` in `color/delta_e.rs`), translated
clause by clause with the branchy subterms named above. -/
noncomputable def ciede2000 (lab1 lab2 : Lab) : ℝ :=
  let lBar := (lab1.l + lab2.l) / 2
  let deltaLPrime := lab2.l - lab1.l
  let c1 := chromaOf lab1.a lab1.b
  let c2 := chromaOf lab2.a lab2.b
  let cBar := (c1 + c2) / 2
  let g := gFactor cBar
  let a1Prime := lab1.a + (lab1.a / 2) * (1 - g)
  let a2Prime := lab2.a + (lab2.a / 2) * (1 - g)
  let c1Prime := chromaOf a1Prime lab1.b
  let c2Prime := chromaOf a2Prime lab2.b
  let cBarPrime := (c1Prime + c2Prime) / 2
  let deltaCPrime := c2Prime - c1Prime
  let h1Prime := hPrime a1Prime lab1.b
  let h2Prime := hPrime a2Prime lab2.b
  let deltaSmallHPrime := deltaHueSmall c1Prime c2Prime h1Prime h2Prime
  let deltaBigHPrime :=
    2 * Real.sqrt (c1Prime * c2Prime) * Real.sin (toRadians deltaSmallHPrime / 2)
  let hBarPrime := hBarPrimeOf h1Prime h2Prime
  let t := tFactor hBarPrime
  let sl := 1 + 0.015 * (lBar - 50) ^ (2 : ℕ) /
    Real.sqrt (20 + (lBar - 50) ^ (2 : ℕ))
  let sc := 1 + 0.045 * cBarPrime
  let sh := 1 + 0.015 * cBarPrime * t
  let rt := rtFactor cBarPrime hBarPrime
  let l := deltaLPrime / (1.0 * sl)
  let c := deltaCPrime / (1.0 * sc)
  let h := deltaBigHPrime / (1.0 * sh)
  Real.sqrt (l * l + c * c + h * h + rt * c * h)

/-! ## Clusters (math/clustering/cluster.rs), generic over the scalar and
point type exactly as the Rust struct is generic over `F: Float` and
`P: Point<F>`. -/

/-- Struct `Cluster` from `math/clustering/cluster.rs`. -/
structure Cluster (F : Type) (P : Type) where
  centroid : P
  membership : List ℕ

/-- `Cluster::new` seeds the centroid and starts with empty membership. -/
def Cluster.new {F P : Type} (initialCentroid : P) : Cluster F P :=
  ⟨initialCentroid, []⟩

/-- `Cluster::size`. -/
def Cluster.size {F P : Type} (c : Cluster F P) : ℕ := c.membership.length

/-- `Cluster::is_empty`. -/
def Cluster.isEmpty {F P : Type} (c : Cluster F P) : Bool := c.membership.isEmpty

/-- `Cluster::insert`: rescale the centroid by the old size, add the point,
divide by the new size, and push the index. -/
def Cluster.insert {F P : Type} [Field F] [AddCommGroup P] [Module F P]
    (c : Cluster F P) (index : ℕ) (point : P) : Cluster F P :=
  ⟨((c.membership.length + 1 : ℕ) : F)⁻¹ •
      (((c.membership.length : ℕ) : F) • c.centroid + point),
    c.membership ++ [index]⟩

/-- `Cluster::clear` zeroes the centroid and drops all membership. -/
def Cluster.clear {F P : Type} [AddCommGroup P] (_c : Cluster F P) : Cluster F P :=
  ⟨0, []⟩

/-- Folding `Cluster::insert` over a list of indexed points. -/
def Cluster.insertAll {F P : Type} [Field F] [AddCommGroup P] [Module F P]
    (c : Cluster F P) (ps : List (ℕ × P)) : Cluster F P :=
  ps.foldl (fun acc ip => acc.insert ip.1 ip.2) c

/-! ## Points and distance metrics (math/point.rs, math/distance.rs)

The fixed-dimension structs `Point2`, `Point3`, `Point5` are embedded as
real-valued coordinate functions together with an explicit dimension
argument `d`; every algorithm only reads coordinates `0 … d-1`. -/

/-- A point: coordinate function (embedding of `Point2`/`Point3`/`Point5`). -/
def Pt : Type := ℕ → ℝ

instance : Zero Pt := ⟨fun _ => (0 : ℝ)⟩

instance : Add Pt := ⟨fun p q i => p i + q i⟩

instance : Neg Pt := ⟨fun p i => -(p i)⟩

instance : Sub Pt := ⟨fun p q i => p i - q i⟩

instance : SMul ℝ Pt := ⟨fun a p i => a * p i⟩

instance : AddCommGroup Pt :=
  { add_assoc := fun p q r => funext fun i => add_assoc (p i) (q i) (r i)
    zero_add := fun p => funext fun i => zero_add (p i)
    add_zero := fun p => funext fun i => add_zero (p i)
    add_comm := fun p q => funext fun i => add_comm (p i) (q i)
    neg_add_cancel := fun p => funext fun i => neg_add_cancel (p i)
    sub_eq_add_neg := fun p q => funext fun i => sub_eq_add_neg (p i) (q i)
    nsmul := nsmulRec
    zsmul := zsmulRec }

instance : Module ℝ Pt :=
  { one_smul := fun p => funext fun i => one_mul (p i)
    mul_smul := fun a b p => funext fun i => mul_assoc a b (p i)
    smul_zero := fun a => funext fun _ => mul_zero a
    smul_add := fun a p q => funext fun i => mul_add a (p i) (q i)
    add_smul := fun a b p => funext fun i => add_mul a b (p i)
    zero_smul := fun p => funext fun i => zero_mul (p i) }

/-- The all-zero point (`P::zero()`). -/
def zeroPt : Pt := fun _ => 0

/-- `Point::dot` over the first `d` coordinates. -/
noncomputable def dotPt (d : ℕ) (p q : Pt) : ℝ := ∑ i ∈ Finset.range d, p i * q i

/-- Helper `squared_euclidean` from `math/distance.rs`. -/
noncomputable def squaredEuclidean (d : ℕ) (p q : Pt) : ℝ :=
  ∑ i ∈ Finset.range d, (p i - q i) ^ (2 : ℕ)

/-- Enum `DistanceMetric` from `math/distance.rs`. -/
inductive DistanceMetric where
  | euclidean
  | squaredEuclidean
  deriving DecidableEq

/-- `DistanceMetric::measure`. -/
noncomputable def DistanceMetric.measure (m : DistanceMetric) (d : ℕ) (p q : Pt) : ℝ :=
  match m with
  | .euclidean => Real.sqrt (ColorLook.squaredEuclidean d p q)
  | .squaredEuclidean => ColorLook.squaredEuclidean d p q

/-! ## Neighbors and sorting (math/neighbors/neighbor.rs)

Rust's `sort_unstable_by` on the `distance` comparator is embedded as a
stable insertion sort: for the short vectors arising here Rust's driver is
an insertion sort that swaps only on strict `Greater`, so ties preserve
the original order, as this embedding does. -/

/-- Struct `Neighbor` from `math/neighbors/neighbor.rs`. -/
structure Neighbor where
  index : ℕ
  distance : ℝ

/-- Insert a neighbor before the first strictly farther entry. -/
noncomputable def insertNeighbor (n : Neighbor) : List Neighbor → List Neighbor
  | [] => [n]
  | m :: ms => if n.distance < m.distance then n :: m :: ms else m :: insertNeighbor n ms

/-- Sort neighbors ascending by distance (embedding of `sort_unstable_by`
on `partial_cmp` of distances). -/
noncomputable def sortNeighbors : List Neighbor → List Neighbor
  | [] => []
  | n :: ns => insertNeighbor n (sortNeighbors ns)

/-! ## Linear search (math/neighbors/linear/search.rs) -/

/-- `LinearSearch::search`. -/
noncomputable def linearSearch (dist : Pt → Pt → ℝ) (points : List Pt) (query : Pt)
    (k : ℕ) : List Neighbor :=
  if k = 0 then []
  else
    (sortNeighbors (points.enum.map fun ip => ⟨ip.1, dist ip.2 query⟩)).take k

/-- `LinearSearch::search_nearest` (`self.search(query, 1).pop()`). -/
noncomputable def linearSearchNearest (dist : Pt → Pt → ℝ) (points : List Pt)
    (query : Pt) : Option Neighbor :=
  (linearSearch dist points query 1).getLast?

/-- `LinearSearch::search_radius`. -/
noncomputable def linearSearchRadius (dist : Pt → Pt → ℝ) (points : List Pt)
    (query : Pt) (radius : ℝ) : List Neighbor :=
  if radius < 0 then []
  else
    sortNeighbors ((points.enum.map fun ip => Neighbor.mk ip.1 (dist ip.2 query)).filter
      fun n => decide (n.distance ≤ radius))

/-! ## k-d tree construction (math/neighbors/kdtree/node.rs and search.rs)

`Option<Box<KDNode>>` becomes an inductive tree with an explicit empty
constructor.  The quickselect (`partition_by_key` / `find_nth_index`) is
translated loop by loop; the cursor `right` is carried as an integer, and
the scans carry their monotonicity so the Hoare loop terminates
structurally.  `find_nth_index` and `build_node` take a fuel argument
(first component of the recursion); the wrappers supply enough fuel for
every execution that the original code completes. -/

/-- The k-d tree: `None` becomes `nil`, `Some(KDNode { .. })` becomes `node`. -/
inductive KDT where
  | nil
  | node (index : ℕ) (axis : ℕ) (left : KDT) (right : KDT)

/-- `KDNode::is_leaf`. -/
def KDT.isLeaf : KDT → Bool
  | .nil => true
  | .node _ _ l r =>
    (match l with | .nil => true | _ => false) &&
    (match r with | .nil => true | _ => false)

/-- Indices stored in a tree, in root-left-right order. -/
def KDT.indices : KDT → List ℕ
  | .nil => []
  | .node i _ l r => i :: (l.indices ++ r.indices)

/-- In-place swap of two slice positions (`slice.swap`). -/
def listSwap (s : List ℕ) (i j : ℕ) : List ℕ :=
  (s.set i (s.getD j 0)).set j (s.getD i 0)

/-- The left scan `while value_fn(&slice[left]) < pivot_value` (guarded at
the slice end; the original never runs past it on reachable states). -/
noncomputable def scanLeft (vf : ℕ → ℝ) (s : List ℕ) (pv : ℝ) (left : ℕ) :
    {l : ℕ // left ≤ l} :=
  if _h : left < s.length ∧ vf (s.getD left 0) < pv then
    let r := scanLeft vf s pv (left + 1)
    ⟨r.1, le_trans (Nat.le_succ left) r.2⟩
  else ⟨left, le_refl left⟩
termination_by s.length - left
decreasing_by omega

/-- The right scan `while value_fn(&slice[right]) > pivot_value` (cursor as
an integer; guarded below zero, which the original never reaches on
reachable states). -/
noncomputable def scanRight (vf : ℕ → ℝ) (s : List ℕ) (pv : ℝ) (right : ℤ) :
    {r : ℤ // r ≤ right} :=
  if h : 0 ≤ right ∧ vf (s.getD right.toNat 0) > pv then
    let r := scanRight vf s pv (right - 1)
    ⟨r.1, le_trans r.2 (by omega)⟩
  else ⟨right, le_refl right⟩
termination_by (right + 1).toNat
decreasing_by omega

/-- The outer `while left <= right` loop of `partition_by_key`. -/
noncomputable def hoareLoop (vf : ℕ → ℝ) (pv : ℝ) (s : List ℕ) (left : ℕ)
    (right : ℤ) : List ℕ × ℕ :=
  if hlr : (left : ℤ) ≤ right then
    let l := scanLeft vf s pv left
    let r := scanRight vf s pv right
    if h2 : (l.1 : ℤ) ≤ r.1 then
      hoareLoop vf pv (listSwap s l.1 r.1.toNat) (l.1 + 1) (r.1 - 1)
    else (s, l.1 - 1)
  else (s, left - 1)
termination_by (right + 1 - left).toNat
decreasing_by
  have hl := (scanLeft vf s pv left).2
  have hr := (scanRight vf s pv right).2
  omega

/-- `KDTreeSearch::partition_by_key`: returns the permuted slice and the
pivot position `left - 1`. -/
noncomputable def partitionByKey (vf : ℕ → ℝ) (s : List ℕ) : List ℕ × ℕ :=
  let pivot := s.length / 2
  let pv := vf (s.getD pivot 0)
  hoareLoop vf pv s 0 ((s.length : ℤ) - 1)

/-- `KDTreeSearch::find_nth_index` with fuel (the original recursion
terminates because each branch strictly shrinks the slice). -/
noncomputable def findNthIndex (fuel : ℕ) (vf : ℕ → ℝ) (s : List ℕ) (n : ℕ) :
    List ℕ × ℕ :=
  match fuel with
  | 0 => (s, 0)
  | fuel + 1 =>
    if s.length ≤ 1 then (s, 0)
    else
      let sp := partitionByKey vf s
      if n < sp.2 then
        let rec1 := findNthIndex fuel vf (sp.1.take sp.2) n
        (rec1.1 ++ sp.1.drop sp.2, rec1.2)
      else if n > sp.2 then
        let rec1 := findNthIndex fuel vf (sp.1.drop (sp.2 + 1)) (n - sp.2 - 1)
        (sp.1.take (sp.2 + 1) ++ rec1.1, rec1.2 + sp.2 + 1)
      else sp

/-- `KDTreeSearch::build_node` with fuel; the wrapper `kdBuild` supplies
`points.length + 1`, enough for every run of the original. -/
noncomputable def buildNode (fuel : ℕ) (d : ℕ) (pts : List Pt) (indices : List ℕ)
    (depth : ℕ) : KDT :=
  match fuel with
  | 0 => .nil
  | fuel + 1 =>
    if indices.isEmpty then .nil
    else
      let axis := depth % d
      let vf : ℕ → ℝ := fun i => (pts.getD i zeroPt) axis
      let median := indices.length / 2
      let fm := findNthIndex indices.length vf indices median
      KDT.node (fm.1.getD fm.2 0) axis
        (buildNode fuel d pts (fm.1.take median) (depth + 1))
        (buildNode fuel d pts (fm.1.drop (median + 1)) (depth + 1))

/-- `KDTreeSearch::new`: build over all indices at depth 0. -/
noncomputable def kdBuild (d : ℕ) (pts : List Pt) : KDT :=
  buildNode (pts.length + 1) d pts (List.range pts.length) 0

/-! ## k-d tree searches, generic over the injected distance function
(the source stores a `&DistanceMetric` and only ever calls `measure`). -/

/-- Distance of an optional best neighbor, `F::max_value()` when absent. -/
noncomputable def optDist : Option Neighbor → ℝ
  | some n => n.distance
  | none => fMax

/-- The bounded best-list update at the head of `search_recursively`:
push-and-sort below capacity, else replace the worst when strictly better. -/
noncomputable def boundedInsert (k : ℕ) (n : Neighbor) (ns : List Neighbor) :
    List Neighbor :=
  if ns.length < k then sortNeighbors (ns ++ [n])
  else if n.distance < (ns.getD (k - 1) ⟨0, 0⟩).distance then
    sortNeighbors (ns.dropLast ++ [n])
  else ns

/-- `KDTreeSearch::search_recursively`. -/
noncomputable def kdSearchRec (pts : List Pt) (dist : Pt → Pt → ℝ) (query : Pt)
    (k : ℕ) : KDT → List Neighbor → List Neighbor
  | .nil, ns => ns
  | .node i ax l r, ns =>
    let p := pts.getD i zeroPt
    let ns1 := boundedInsert k ⟨i, dist p query⟩ ns
    if (KDT.node i ax l r).isLeaf then ns1
    else
      let delta := query ax - p ax
      if ns1.length < k ∨ |delta| ≤ (ns1.getD (k - 1) ⟨0, 0⟩).distance then
        kdSearchRec pts dist query k r (kdSearchRec pts dist query k l ns1)
      else if delta < 0 then kdSearchRec pts dist query k l ns1
      else kdSearchRec pts dist query k r ns1

/-- `KDTreeSearch::search` (`NeighborSearch` impl). -/
noncomputable def kdSearch (pts : List Pt) (dist : Pt → Pt → ℝ) (tree : KDT)
    (query : Pt) (k : ℕ) : List Neighbor :=
  if k = 0 then []
  else (sortNeighbors (kdSearchRec pts dist query k tree [])).take k

/-- `KDTreeSearch::search_nearest_recursively`. -/
noncomputable def kdSearchNearestRec (pts : List Pt) (dist : Pt → Pt → ℝ)
    (query : Pt) : KDT → Option Neighbor → Option Neighbor
  | .nil, best => best
  | .node i ax l r, best =>
    let p := pts.getD i zeroPt
    let dd := dist p query
    if dd ≥ optDist best then best
    else
      let nearest := some (Neighbor.mk i dd)
      if (KDT.node i ax l r).isLeaf then nearest
      else
        let delta := query ax - p ax
        if delta < 0 then
          let n2 := kdSearchNearestRec pts dist query l nearest
          if |delta| < optDist n2 then kdSearchNearestRec pts dist query r n2 else n2
        else
          let n2 := kdSearchNearestRec pts dist query r nearest
          if |delta| < optDist n2 then kdSearchNearestRec pts dist query l n2 else n2

/-- `KDTreeSearch::search_nearest`. -/
noncomputable def kdSearchNearest (pts : List Pt) (dist : Pt → Pt → ℝ) (tree : KDT)
    (query : Pt) : Option Neighbor :=
  kdSearchNearestRec pts dist query tree none

/-- `KDTreeSearch::search_radius_recursively`. -/
noncomputable def kdSearchRadiusRec (pts : List Pt) (dist : Pt → Pt → ℝ)
    (query : Pt) (radius : ℝ) : KDT → List Neighbor → List Neighbor
  | .nil, ns => ns
  | .node i ax l r, ns =>
    let p := pts.getD i zeroPt
    let dd := dist p query
    let ns1 := if dd ≤ radius then ns ++ [Neighbor.mk i dd] else ns
    let delta := query ax - p ax
    if |delta| ≤ radius then
      kdSearchRadiusRec pts dist query radius r (kdSearchRadiusRec pts dist query radius l ns1)
    else if delta < 0 then kdSearchRadiusRec pts dist query radius l ns1
    else kdSearchRadiusRec pts dist query radius r ns1

/-- `KDTreeSearch::search_radius`. -/
noncomputable def kdSearchRadius (pts : List Pt) (dist : Pt → Pt → ℝ) (tree : KDT)
    (query : Pt) (radius : ℝ) : List Neighbor :=
  if radius < 0 then [] else kdSearchRadiusRec pts dist query radius tree []

/-! ## DBSCAN (math/clustering/dbscan/label.rs and algorithm.rs) -/

/-- Enum `Label` from `dbscan/label.rs`. -/
inductive Label where
  | undefined
  | assigned (clusterId : ℕ)
  | outlier
  | marked
  deriving DecidableEq

/-- `Label::is_assigned`. -/
def Label.isAssigned : Label → Bool
  | .assigned _ => true
  | _ => false

/-- `Label::is_outlier`. -/
def Label.isOutlier : Label → Bool
  | .outlier => true
  | _ => false

/-- `Label::is_undefined`. -/
def Label.isUndefined : Label → Bool
  | .undefined => true
  | _ => false

/-- The body of the `for secondary_neighbor in ...` loop inside
`DBSCAN::expand_cluster`: mark undefined points and queue them, queue
outliers, ignore the rest. -/
noncomputable def dbscanQueueStep (lq : List Label × List ℕ) (idx : ℕ) :
    List Label × List ℕ :=
  match lq.1.getD idx .undefined with
  | .undefined => (lq.1.set idx .marked, lq.2 ++ [idx])
  | .outlier => (lq.1, lq.2 ++ [idx])
  | _ => lq

/-- The `while let Some(current_index) = queue.pop_front()` loop of
`DBSCAN::expand_cluster`, with fuel (the original terminates since every
point is assigned at most once and queued boundedly often). -/
noncomputable def expandLoop (fuel : ℕ) (dims : ℕ) (pts : List Pt)
    (dist : Pt → Pt → ℝ) (eps : ℝ) (minSamples : ℕ) (clusterId : ℕ) (tree : KDT)
    (queue : List ℕ) (labels : List Label) : List Label :=
  match fuel with
  | 0 => labels
  | fuel + 1 =>
    match queue with
    | [] => labels
    | cur :: rest =>
      if (labels.getD cur .undefined).isAssigned then
        expandLoop fuel dims pts dist eps minSamples clusterId tree rest labels
      else if (labels.getD cur .undefined).isOutlier then
        expandLoop fuel dims pts dist eps minSamples clusterId tree rest
          (labels.set cur (.assigned clusterId))
      else
        let labels1 := labels.set cur (.assigned clusterId)
        let sec := kdSearchRadius pts dist tree (pts.getD cur zeroPt) eps
        if sec.length < minSamples then
          expandLoop fuel dims pts dist eps minSamples clusterId tree rest labels1
        else
          let step := sec.foldl (fun lq nb => dbscanQueueStep lq nb.index)
            (labels1, rest)
          expandLoop fuel dims pts dist eps minSamples clusterId tree step.2 step.1

/-- `DBSCAN::expand_cluster`: breadth-first expansion seeded with the
initial neighborhood. -/
noncomputable def expandCluster (dims : ℕ) (pts : List Pt) (dist : Pt → Pt → ℝ)
    (eps : ℝ) (minSamples : ℕ) (clusterId : ℕ) (tree : KDT)
    (neighbors : List Neighbor) (labels : List Label) : List Label :=
  expandLoop ((pts.length + 1) * (pts.length + 1) + pts.length + 1) dims pts dist
    eps minSamples clusterId tree (neighbors.map Neighbor.index) labels

/-- The `for (index, point) in points.iter().enumerate()` loop of
`DBSCAN::fit`, returning the final labels and the next cluster id. -/
noncomputable def dbscanMainLoop (dims : ℕ) (pts : List Pt) (dist : Pt → Pt → ℝ)
    (eps : ℝ) (minSamples : ℕ) (tree : KDT) :
    List ℕ → List Label × ℕ → List Label × ℕ
  | [], st => st
  | index :: restIdx, st =>
    let labels := st.1
    let clusterId := st.2
    if ¬ (labels.getD index .undefined).isUndefined then
      dbscanMainLoop dims pts dist eps minSamples tree restIdx (labels, clusterId)
    else
      let neighbors := kdSearchRadius pts dist tree (pts.getD index zeroPt) eps
      if neighbors.length < minSamples then
        dbscanMainLoop dims pts dist eps minSamples tree restIdx
          (labels.set index .outlier, clusterId)
      else
        let marked := neighbors.foldl (fun ls nb => ls.set nb.index .marked) labels
        let expanded := expandCluster dims pts dist eps minSamples clusterId tree
          neighbors marked
        dbscanMainLoop dims pts dist eps minSamples tree restIdx
          (expanded, clusterId + 1)

/-- Rebuild the cluster for one id from the final labels, inserting points
in index order exactly as the label sweep of `DBSCAN::fit` does. -/
noncomputable def clusterOfId (pts : List Pt) (labels : List Label) (cid : ℕ) :
    Cluster ℝ Pt :=
  Cluster.insertAll ⟨0, []⟩
    (((List.range pts.length).filter fun i =>
        decide (labels.getD i .undefined = .assigned cid)).map
      fun i => (i, pts.getD i zeroPt))

/-- `DBSCAN::fit` over an injected distance function; the `HashMap` of
clusters is read off in increasing cluster id (iteration order of the Rust
map is arbitrary) and the `HashSet` of outliers as the sorted index list. -/
noncomputable def dbscanFit (dims : ℕ) (dist : Pt → Pt → ℝ) (minSamples : ℕ)
    (eps : ℝ) (points : List Pt) : List (Cluster ℝ Pt) × List ℕ :=
  if points.isEmpty then ([], [])
  else
    let tree := kdBuild dims points
    let st := dbscanMainLoop dims points dist eps minSamples tree
      (List.range points.length) (List.replicate points.length .undefined, 0)
    let clusters := ((List.range st.2).map fun cid =>
      clusterOfId points st.1 cid).filter fun c => ¬ c.isEmpty
    let outliers := (List.range points.length).filter fun i =>
      decide (st.1.getD i .undefined = .outlier)
    (clusters, outliers)

/-- Struct `DBSCAN` from `dbscan/algorithm.rs`. -/
structure DBSCAN where
  minSamples : ℕ
  epsilon : ℝ
  metric : DistanceMetric

/-- `DBSCAN::fit` with the stored metric, at dimension `dims`. -/
noncomputable def DBSCAN.fit (dbscan : DBSCAN) (dims : ℕ) (points : List Pt) :
    List (Cluster ℝ Pt) × List ℕ :=
  dbscanFit dims (dbscan.metric.measure dims) dbscan.minSamples dbscan.epsilon points

/-! ## Priority queues

Rust's `BinaryHeap` over `Priority` (ordered by priority alone, ties
unspecified) is modelled by a list whose pop removes the first maximal
(resp. first minimal, for the `Reverse`-wrapped min-heaps) element; every
claim settled below is insensitive to the tie-break. -/

/-- Pop the first element attaining the maximal priority. -/
noncomputable def popFirstMaxBy {α β : Type} [LinearOrder β] (p : α → β) :
    List α → Option (α × List α)
  | [] => none
  | x :: xs =>
    match popFirstMaxBy p xs with
    | none => some (x, [])
    | some (y, rest) => if p y > p x then some (y, x :: rest) else some (x, xs)

/-- Pop the first element attaining the minimal priority. -/
noncomputable def popFirstMinBy {α β : Type} [LinearOrder β] (p : α → β) :
    List α → Option (α × List α)
  | [] => none
  | x :: xs =>
    match popFirstMinBy p xs with
    | none => some (x, [])
    | some (y, rest) => if p y < p x then some (y, x :: rest) else some (x, xs)

/-! ## Statistics (math/stats.rs)

The `statrs` dependency supplies `Normal::new(0.0, 1.0).cdf`, which is not
part of this repository; it is modelled from its mathematical meaning as
the standard normal cumulative distribution function. -/

/-- Standard normal density. -/
noncomputable def stdNormalPdf (t : ℝ) : ℝ :=
  Real.exp (-(t ^ (2 : ℕ)) / 2) / Real.sqrt (2 * Real.pi)

/-- Standard normal cumulative distribution function (the model of
`statrs::distribution::Normal::cdf` for mean 0, deviation 1). -/
noncomputable def stdNormalCdf (x : ℝ) : ℝ :=
  ∫ t in Set.Iic x, stdNormalPdf t

/-- Insertion step for sorting reals ascending. -/
noncomputable def insertReal (v : ℝ) : List ℝ → List ℝ
  | [] => [v]
  | w :: ws => if v < w then v :: w :: ws else w :: insertReal v ws

/-- Sorting reals ascending (embedding of `sort_unstable_by` on
`partial_cmp`; the Anderson-Darling statistic only reads the sorted values,
so the tie-break is irrelevant). -/
noncomputable def sortReals : List ℝ → List ℝ
  | [] => []
  | v :: vs => insertReal v (sortReals vs)

/-- `standardize` from `math/stats.rs`. -/
noncomputable def standardize (x : List ℝ) : List ℝ :=
  if x.isEmpty then x
  else
    let n : ℝ := x.length
    let mean := x.sum / n
    let variance := (x.map fun v => (v - mean) ^ (2 : ℕ)).sum / n
    let sd := Real.sqrt variance
    x.map fun v => (v - mean) / sd

/-- `anderson_darling_test` from `math/stats.rs`. -/
noncomputable def andersonDarlingTest (x : List ℝ) : Option ℝ :=
  if x.isEmpty then none
  else
    let sorted := sortReals x
    let pValues := sorted.map fun v => stdNormalCdf v
    let n := x.length
    let nf : ℝ := n
    let s := ∑ i ∈ Finset.range n,
      ((2 * i + 1 : ℕ) : ℝ) *
        (Real.log (pValues.getD i 0) + Real.log (1 - pValues.getD (n - 1 - i) 0))
    let aSquared := s / (-nf) - nf
    some (aSquared * (1 + 4 / nf + 25 / nf ^ (2 : ℕ)))

/-! ## G-means (math/clustering/gmeans/algorithm.rs)

The main `while clusters.len() < max_k` loop can run unboundedly (a
rejected split re-enters the queue), so it carries a fuel argument; the
amended claim below holds for every fuel value and the concrete runs
finish well inside the wrapper's allowance.  The loop additionally
returns the list of sizes of clusters passed to `split`, which the
plain `fit` discards. -/

/-- Struct `Gmeans`; `Gmeans::new` asserts `max_k >= 2`, carried as a
hypothesis where needed. -/
structure Gmeans where
  maxK : ℕ
  maxIter : ℕ
  minClusterSize : ℕ
  tolerance : ℝ
  metric : DistanceMetric

/-- `Gmeans::assign`: snapshot centroids, clear, reassign all indices to
their nearest centroid, and report convergence. -/
noncomputable def Gmeans.assign (gm : Gmeans) (dims : ℕ)
    (clusters : List (Cluster ℝ Pt)) (indices : List ℕ) (pts : List Pt) :
    List (Cluster ℝ Pt) × Bool :=
  let centroids := clusters.map Cluster.centroid
  let cleared := clusters.map Cluster.clear
  let tree := kdBuild dims centroids
  let assigned := indices.foldl (fun cls idx =>
    match kdSearchNearest centroids (gm.metric.measure dims) tree (pts.getD idx zeroPt) with
    | none => cls
    | some nb => cls.set nb.index
        ((cls.getD nb.index ⟨zeroPt, []⟩).insert idx (pts.getD idx zeroPt))) cleared
  let converged := (assigned.zip centroids).foldl (fun conv cc =>
    if cc.1.isEmpty then conv
    else if gm.metric.measure dims cc.2 cc.1.centroid ≥ gm.tolerance then false
    else conv) true
  (assigned, converged)

/-- The `for _ in 0..max_iter` refinement loop inside `Gmeans::split`. -/
noncomputable def Gmeans.splitLoop (gm : Gmeans) (dims : ℕ) (pts : List Pt)
    (membership : List ℕ) : ℕ → List (Cluster ℝ Pt) → List (Cluster ℝ Pt)
  | 0, cls => cls
  | k + 1, cls =>
    let ac := gm.assign dims cls membership pts
    if ac.2 then ac.1 else gm.splitLoop dims pts membership k ac.1

/-- `Gmeans::split`: seed two clusters a third and two thirds along the
membership list, then refine. -/
noncomputable def Gmeans.split (gm : Gmeans) (dims : ℕ) (cluster : Cluster ℝ Pt)
    (pts : List Pt) : Cluster ℝ Pt × Cluster ℝ Pt :=
  let membership := cluster.membership
  let seed1 : Cluster ℝ Pt :=
    Cluster.new (pts.getD (membership.getD (cluster.size * 1 / 3) 0) zeroPt)
  let seed2 : Cluster ℝ Pt :=
    Cluster.new (pts.getD (membership.getD (cluster.size * 2 / 3) 0) zeroPt)
  let final := gm.splitLoop dims pts membership gm.maxIter [seed1, seed2]
  (final.getD 0 ⟨zeroPt, []⟩, final.getD 1 ⟨zeroPt, []⟩)

/-- The main split queue loop of `Gmeans::fit`; the second result lists the
size of every cluster on which `split` was invoked. -/
noncomputable def gmLoop (gm : Gmeans) (dims : ℕ) (pts : List Pt) :
    ℕ → List (Cluster ℝ Pt × ℕ) → List (Cluster ℝ Pt) → List ℕ →
    List (Cluster ℝ Pt) × List ℕ
  | 0, _, clusters, splitSizes => (clusters, splitSizes)
  | fuel + 1, heap, clusters, splitSizes =>
    if clusters.length < gm.maxK then
      match popFirstMaxBy Prod.snd heap with
      | none => (clusters, splitSizes)
      | some (largest, heap1) =>
        if largest.2 < gm.minClusterSize ∨ largest.2 ≤ 1 then (clusters, splitSizes)
        else
          let split2 := gm.split dims largest.1 pts
          let splitSizes1 := splitSizes ++ [largest.2]
          let v := split2.1.centroid - split2.2.centroid
          let vp := dotPt dims v v
          let xs := largest.1.membership.map fun idx =>
            dotPt dims (pts.getD idx zeroPt) v / vp
          match andersonDarlingTest (standardize xs) with
          | none => (clusters, splitSizes1)
          | some score =>
            if score < 1.8692 then
              gmLoop gm dims pts fuel heap1
                (clusters ++ [split2.1, split2.2]) splitSizes1
            else
              gmLoop gm dims pts fuel
                (heap1 ++ [(split2.1, split2.1.size), (split2.2, split2.2.size)])
                clusters splitSizes1
    else (clusters, splitSizes)

/-- `Gmeans::fit`, also exposing the split-size log. -/
noncomputable def Gmeans.fitWithLog (gm : Gmeans) (dims : ℕ) (pts : List Pt) :
    List (Cluster ℝ Pt) × List ℕ :=
  if pts.isEmpty then ([], [])
  else
    let cluster : Cluster ℝ Pt := Cluster.new (pts.getD (pts.length / 2) zeroPt)
    let ac := gm.assign dims [cluster] (List.range pts.length) pts
    if ac.2 then (ac.1, [])
    else
      gmLoop gm dims pts ((pts.length + gm.maxK + 2) * (pts.length + 2))
        (ac.1.map fun c => (c, c.size)) [] []

/-- `Gmeans::fit`. -/
noncomputable def Gmeans.fit (gm : Gmeans) (dims : ℕ) (pts : List Pt) :
    List (Cluster ℝ Pt) :=
  (gm.fitWithLog dims pts).1

/-! ## Hierarchical clustering (math/clustering/hierarchical/) -/

/-- Struct `Node` from `hierarchical/node.rs`. -/
structure Node where
  label : ℕ
  node1 : Option ℕ
  node2 : Option ℕ
  distance : ℝ

instance : Inhabited Node := ⟨⟨0, none, none, 0⟩⟩

/-- A dendrogram is its node vector (`Dendrogram` from `dendrogram.rs`;
the capacity assertion of `push` always holds in the runs below). -/
def Dendrogram : Type := List Node

/-- The `while membership.len() < n` loop of `Dendrogram::partition`.
Every iteration grows `heap.len() + membership.len()` by exactly one, so
the wrapper's fuel `n + 1` is never exhausted. -/
noncomputable def partLoop (nodes : List Node) (n : ℕ) :
    ℕ → List Node → List Node → List Node
  | 0, _, mem => mem
  | fuel + 1, heap, mem =>
    if mem.length < n then
      if n ≤ heap.length + mem.length then (mem ++ heap).take n
      else
        match popFirstMaxBy Node.distance heap with
        | none => mem
        | some (nd, heap1) =>
          let hm2 : List Node × List Node :=
            match nd.node1 with
            | some i1 => (heap1 ++ [nodes.getD i1 default], mem)
            | none => (heap1, mem ++ [nd])
          let hm3 : List Node × List Node :=
            match nd.node2 with
            | some i2 => (hm2.1 ++ [nodes.getD i2 default], hm2.2)
            | none => (hm2.1, hm2.2 ++ [nd])
          partLoop nodes n fuel hm3.1 hm3.2
    else mem

/-- `Dendrogram::partition`. -/
noncomputable def Dendrogram.partition (nodes : Dendrogram) (n : ℕ) : List Node :=
  let heap0 : List Node :=
    match (nodes : List Node).getLast? with
    | some nd => [nd]
    | none => []
  partLoop nodes n (n + 1) heap0 []

/-- Struct `DistanceMatrix` from `hierarchical/linkage.rs`. -/
structure DistanceMatrix where
  distances : List ℝ
  size : ℕ

/-- `DistanceMatrix::index` (the bounds assertions hold in the runs below). -/
def DistanceMatrix.index (m : DistanceMatrix) (i j : ℕ) : ℕ :=
  let minIndex := min i j
  let maxIndex := max i j
  m.distances.length - (m.size - minIndex + 1) * (m.size - minIndex) / 2 + maxIndex -
    minIndex

/-- `DistanceMatrix::get`. -/
noncomputable def DistanceMatrix.get (m : DistanceMatrix) (i j : ℕ) : ℝ :=
  m.distances.getD (m.index i j) 0

/-- `DistanceMatrix::set`. -/
noncomputable def DistanceMatrix.set (m : DistanceMatrix) (i j : ℕ) (value : ℝ) :
    DistanceMatrix :=
  ⟨m.distances.set (m.index i j) value, m.size⟩

/-- `DistanceMatrix::new`: a `max`-filled lower triangle seeded with the
pairwise distances of the dataset. -/
noncomputable def DistanceMatrix.new {T : Type} [Inhabited T] (dataset : List T)
    (df : T → T → ℝ) : DistanceMatrix :=
  let nElements := dataset.length
  let size := nElements * 2 - 1
  let capacity := size * (size + 1) / 2
  let init : DistanceMatrix := ⟨List.replicate capacity fMax, size⟩
  (List.range nElements).foldl (fun m i =>
    (List.range nElements).foldl (fun m2 j =>
      if i < j then
        ⟨m2.distances.set (capacity - (size + 1 - i) * (size - i) / 2 + j - i)
          (df (dataset.getD i default) (dataset.getD j default)), m2.size⟩
      else m2) m) init

/-- Struct `CompleteLinkage` from `hierarchical/linkage.rs` (the `HashSet`
of inactive labels becomes a list). -/
structure CompleteLinkage where
  matrix : DistanceMatrix
  inactive : List ℕ
  nextIndex : ℕ

/-- `CompleteLinkage::new`. -/
noncomputable def CompleteLinkage.new {T : Type} [Inhabited T] (dataset : List T)
    (df : T → T → ℝ) : CompleteLinkage :=
  ⟨DistanceMatrix.new dataset df, [], dataset.length⟩

/-- `Linkage::distance` for `CompleteLinkage`. -/
noncomputable def CompleteLinkage.distance (lk : CompleteLinkage) (i j : ℕ) : ℝ :=
  if lk.inactive.contains i ∨ lk.inactive.contains j then fMax else lk.matrix.get i j

/-- `Linkage::merge` for `CompleteLinkage`, returning the updated linkage
and the fresh label. -/
noncomputable def CompleteLinkage.merge (lk : CompleteLinkage) (i j : ℕ) :
    CompleteLinkage × ℕ :=
  let label := lk.nextIndex
  let matrix1 := (List.range label).foldl (fun mx k =>
    let d1 := if lk.inactive.contains i ∨ lk.inactive.contains k then fMax
      else mx.get i k
    let d2 := if lk.inactive.contains j ∨ lk.inactive.contains k then fMax
      else mx.get j k
    if i = k then mx.set k label d2
    else if j = k then mx.set k label d1
    else mx.set k label (max d1 d2)) lk.matrix
  (⟨matrix1, lk.inactive ++ [i, j], label + 1⟩, label)

/-- The `while let Some(...) = heap.pop()` loop of
`HierarchicalClustering::fit_with_linkage` (min-heap via `Reverse`);
fuel-bounded, with the wrapper allowance covering every run. -/
noncomputable def hierLoop :
    ℕ → List ((ℕ × ℕ) × ℝ) → CompleteLinkage → List Node → List ℕ → List Node
  | 0, _, _, dendro, _ => dendro
  | fuel + 1, heap, lk, dendro, inactiveNodes =>
    match popFirstMinBy Prod.snd heap with
    | none => dendro
    | some (pd, heap1) =>
      if inactiveNodes.contains pd.1.1 ∨ inactiveNodes.contains pd.1.2 then
        hierLoop fuel heap1 lk dendro inactiveNodes
      else
        let ml := lk.merge pd.1.1 pd.1.2
        let inactive1 := inactiveNodes ++ [pd.1.1, pd.1.2]
        let dendro1 := dendro ++ [Node.mk ml.2 (some pd.1.1) (some pd.1.2) pd.2]
        let heap2 := heap1 ++ ((List.range ml.2).filterMap fun i =>
          if inactive1.contains i then none
          else some ((i, ml.2), ml.1.distance i ml.2))
        hierLoop fuel heap2 ml.1 dendro1 inactive1

/-- `HierarchicalClustering::fit_with_linkage` specialised to
`CompleteLinkage` (the only linkage the palette pipeline uses). -/
noncomputable def fitWithLinkage {T : Type} (dataset : List T)
    (lk : CompleteLinkage) : Dendrogram :=
  let nDataset := dataset.length
  let dendro0 : List Node := (List.range nDataset).map fun i => Node.mk i none none 0
  let heap0 : List ((ℕ × ℕ) × ℝ) := (List.range dendro0.length).flatMap fun i =>
    ((List.range dendro0.length).filter fun j => decide (i < j)).map fun j =>
      ((i, j), lk.distance i j)
  hierLoop ((2 * nDataset + 2) * (2 * nDataset + 2) * (2 * nDataset + 2) + 1)
    heap0 lk dendro0 []

/-! ## Colors, swatches and themes
(color/color_struct.rs, swatch.rs, theme.rs) -/

/-- Enum `DeltaE` from `color/delta_e.rs`. -/
inductive DeltaE where
  | cie76
  | cie94
  | cie2000

/-- `DeltaE::measure` (CIE94 with kL=1, K1=0.045, K2=0.015). -/
noncomputable def DeltaE.measure (m : DeltaE) (lab1 lab2 : Lab) : ℝ :=
  match m with
  | .cie76 => ColorLook.cie76 lab1 lab2
  | .cie94 =>
    let deltaL := lab1.l - lab2.l
    let deltaA := lab1.a - lab2.a
    let deltaB := lab1.b - lab2.b
    let c1 := Real.sqrt (lab1.a ^ (2 : ℕ) + lab1.b ^ (2 : ℕ))
    let c2 := Real.sqrt (lab2.a ^ (2 : ℕ) + lab2.b ^ (2 : ℕ))
    let deltaC := c1 - c2
    let deltaH := Real.sqrt (deltaA ^ (2 : ℕ) + deltaB ^ (2 : ℕ) - deltaC ^ (2 : ℕ))
    (deltaL / (1 * 1)) ^ (2 : ℕ) + (deltaC / (1 + 0.045 * c1)) ^ (2 : ℕ) +
      (deltaH / (1 + 0.015 * c1)) ^ (2 : ℕ)
  | .cie2000 => ciede2000 lab1 lab2

/-- Struct `Color` from `color_struct.rs` (Lab components). -/
structure Color where
  l : ℝ
  a : ℝ
  b : ℝ

/-- `Color::to_lab`. -/
noncomputable def Color.toLab (c : Color) : Lab := Lab.new c.l c.a c.b

/-- `From<&Lab> for Color`. -/
def Color.fromLab (lab : Lab) : Color := ⟨lab.l, lab.a, lab.b⟩

/-- `From<&RGB> for Color`. -/
noncomputable def Color.fromRgb (rgb : RGB) : Color :=
  Color.fromLab (xyzToLab (rgbToXyz rgb))

/-- `Color::chroma`. -/
noncomputable def Color.chroma (c : Color) : ℝ :=
  Real.sqrt (c.a ^ (2 : ℕ) + c.b ^ (2 : ℕ))

/-- `Color::lightness`. -/
def Color.lightness (c : Color) : ℝ := c.l

/-- `Color::mix`: linear interpolation in Lab, clamped by `Lab::new`. -/
noncomputable def Color.mix (c other : Color) (ratio : ℝ) : Color :=
  let lab := Lab.new (c.l + (other.l - c.l) * ratio) (c.a + (other.a - c.a) * ratio)
    (c.b + (other.b - c.b) * ratio)
  ⟨lab.l, lab.a, lab.b⟩

/-- `Color::difference`. -/
noncomputable def Color.difference (c other : Color) (metric : DeltaE) : ℝ :=
  metric.measure c.toLab other.toLab

/-- Struct `Swatch` from `swatch.rs`. -/
structure Swatch where
  color : Color
  position : ℕ × ℕ
  population : ℕ

instance : Inhabited Swatch := ⟨⟨⟨0, 0, 0⟩, (0, 0), 0⟩⟩

/-- `Swatch::distance`: CIEDE2000 between the two swatch colors. -/
noncomputable def Swatch.distance (s other : Swatch) : ℝ :=
  s.color.difference other.color .cie2000

/-- `Fraction::new(..).value()`: clamp into the unit interval. -/
noncomputable def fractionValue (v : ℝ) : ℝ := clampF v 0 1

/-- The four themes of `theme.rs`. -/
inductive Theme where
  | vivid
  | muted
  | light
  | dark

/-- `Theme::weight(..).value()` for each theme. -/
noncomputable def Theme.weight (th : Theme) (sw : Swatch) : ℝ :=
  match th with
  | .vivid => fractionValue (normalizeF sw.color.chroma 0 128)
  | .muted => fractionValue (1 - normalizeF sw.color.chroma 0 128)
  | .light => fractionValue (sw.color.lightness / 100)
  | .dark => fractionValue (1 - sw.color.lightness / 100)

/-! ## The palette pipeline (image.rs, algorithm.rs, palette.rs) -/

/-- Struct `ImageData` from `image.rs`. -/
structure ImageData where
  width : ℕ
  height : ℕ
  channels : ℕ
  data : List ℕ

/-- `chunks_exact`: full chunks of `c` elements, remainder dropped. -/
def chunksExact {α : Type} (c : ℕ) (l : List α) : List (List α) :=
  if _h : 0 < c ∧ c ≤ l.length then l.take c :: chunksExact c (l.drop c) else []
termination_by l.length
decreasing_by
  simp only [List.length_drop]
  omega

/-- A 5-dimensional point from its components. -/
def mkPt5 (a b c d e : ℝ) : Pt := fun n =>
  match n with
  | 0 => a
  | 1 => b
  | 2 => c
  | 3 => d
  | 4 => e
  | _ => 0

/-- A 3-dimensional point from its components. -/
def mkPt3 (a b c : ℝ) : Pt := fun n =>
  match n with
  | 0 => a
  | 1 => b
  | 2 => c
  | _ => 0

/-- `convert_to_pixels` from `palette.rs`: one 5-D point per pixel whose
alpha (when present) is nonzero. -/
noncomputable def convertToPixels (imageData : ImageData) : List Pt :=
  let width := imageData.width
  let widthF : ℝ := imageData.width
  let heightF : ℝ := imageData.height
  (chunksExact imageData.channels imageData.data).enum.filterMap fun ic =>
    let chunk := ic.2
    if chunk.length ≥ 4 ∧ chunk.getD 3 0 = 0 then none
    else
      let rgb : RGB := ⟨chunk.getD 0 0, chunk.getD 1 0, chunk.getD 2 0⟩
      let lab := xyzToLab (rgbToXyz rgb)
      let x := ic.1 % width
      let y := ic.1 / width
      some (mkPt5 (normalizeF lab.l 0 100) (normalizeF lab.a (-128) 127)
        (normalizeF lab.b (-128) 127) ((x : ℝ) / widthF) ((y : ℝ) / heightF))

/-- `pixel_cluster_to_swatch` from `palette.rs` (`to_u32` truncates the
non-negative denormalised coordinates). -/
noncomputable def pixelClusterToSwatch (cluster : Cluster ℝ Pt)
    (width height : ℕ) : Option Swatch :=
  if cluster.isEmpty then none
  else
    let centroid := cluster.centroid
    let lab := Lab.new (denormalizeF (centroid 0) 0 100)
      (denormalizeF (centroid 1) (-128) 127) (denormalizeF (centroid 2) (-128) 127)
    let x := denormalizeF (centroid 3) 0 width
    let y := denormalizeF (centroid 4) 0 height
    some ⟨Color.fromLab lab, (⌊x⌋.toNat, ⌊y⌋.toNat), cluster.size⟩

/-- `color_cluster_to_swatch` from `palette.rs`: fold the cluster members
into one population-weighted swatch. -/
noncomputable def colorClusterToSwatch (cluster : Cluster ℝ Pt)
    (candidates : List Swatch) : Option Swatch :=
  if cluster.isEmpty then none
  else
    match cluster.membership with
    | [] => none
    | first :: restMem =>
      some (restMem.foldl (fun prev lbl =>
        let curr := candidates.getD lbl default
        let population := prev.population + curr.population
        let fraction := (curr.population : ℝ) / (population : ℝ)
        Swatch.mk (prev.color.mix curr.color fraction)
          (if fraction ≤ 0.5 then prev.position else curr.position) population)
        (candidates.getD first default))

/-- `cluster_with_gmeans` from `algorithm.rs` (defaults 32/8/16/1e-3,
squared Euclidean), on the 5-D pixel embedding. -/
noncomputable def clusterWithGmeans (points : List Pt) : List (Cluster ℝ Pt) :=
  (Gmeans.mk 32 8 16 0.001 .squaredEuclidean).fit 5 points

/-- `cluster_with_dbscan` from `algorithm.rs` (defaults 16/0.0016, squared
Euclidean), on the 5-D pixel embedding. -/
noncomputable def clusterWithDbscan (points : List Pt) : List (Cluster ℝ Pt) :=
  ((DBSCAN.mk 16 0.0016 .squaredEuclidean).fit 5 points).1

/-- Enum `Algorithm` from `algorithm.rs`. -/
inductive Algorithm where
  | gmeans
  | dbscan

/-- `Algorithm::apply`. -/
noncomputable def Algorithm.apply (alg : Algorithm) (points : List Pt) :
    List (Cluster ℝ Pt) :=
  match alg with
  | .gmeans => clusterWithGmeans points
  | .dbscan => clusterWithDbscan points

/-- The de-duplication clustering of `Palette::extract_with_algorithm`
(stage C): `DBSCAN::new(1, F::from_f64(2.3), &DistanceMetric::Euclidean)`
applied to the 3-D Lab colors of the candidate swatches. -/
noncomputable def stageC (colors : List Pt) : List (Cluster ℝ Pt) × List ℕ :=
  (DBSCAN.mk 1 2.3 DistanceMetric.euclidean).fit 3 colors

/-- Struct `Palette` from `palette.rs`. -/
structure Palette where
  swatches : List Swatch

/-- `Palette::extract_with_algorithm`, starting from the decoded
`ImageData` (the `DynamicImage` match only converts the buffer). -/
noncomputable def Palette.extractWithAlgorithm (imageData : ImageData)
    (algorithm : Algorithm) : Palette :=
  let pixels := convertToPixels imageData
  let pixelClusters := algorithm.apply pixels
  let candidates := pixelClusters.filterMap fun cluster =>
    pixelClusterToSwatch cluster imageData.width imageData.height
  let colors := candidates.map fun swatch =>
    let lab := swatch.color.toLab
    mkPt3 lab.l lab.a lab.b
  let swatchClusters := (stageC colors).1
  ⟨swatchClusters.filterMap fun cluster => colorClusterToSwatch cluster candidates⟩

/-- `Palette::extract` (default algorithm: DBSCAN). -/
noncomputable def Palette.extract (imageData : ImageData) : Palette :=
  Palette.extractWithAlgorithm imageData .dbscan

/-- `Palette::len`. -/
def Palette.len (p : Palette) : ℕ := p.swatches.length

/-- `Palette::is_empty`. -/
def Palette.isEmpty (p : Palette) : Bool := p.swatches.isEmpty

/-- `find_swatch` from `palette.rs` with fuel (terminating because child
labels strictly precede their parents in every dendrogram the pipeline
builds). -/
noncomputable def findSwatch (swatches : List Swatch) (nodes : List Node)
    (scoreFn : Swatch → ℝ) : ℕ → ℕ → Swatch
  | 0, root => swatches.getD root default
  | fuel + 1, root =>
    let rootNode := nodes.getD root default
    match rootNode.node1, rootNode.node2 with
    | some l1, some l2 =>
      let swatch1 := findSwatch swatches nodes scoreFn fuel l1
      let swatch2 := findSwatch swatches nodes scoreFn fuel l2
      let score1 := scoreFn swatch1
      let score2 := scoreFn swatch2
      let fraction := score2 / (score1 + score2)
      Swatch.mk (swatch1.color.mix swatch2.color fraction)
        (if fraction ≤ 0.5 then swatch1.position else swatch2.position)
        (swatch1.population + swatch2.population)
    | some l1, none => findSwatch swatches nodes scoreFn fuel l1
    | none, some l2 => findSwatch swatches nodes scoreFn fuel l2
    | none, none => swatches.getD root default

/-- `Palette::find_swatches`: complete-linkage dendrogram over the
swatches, partitioned into `n` groups, each folded to one swatch. -/
noncomputable def Palette.findSwatches (p : Palette) (n : ℕ)
    (scoreFn : Swatch → ℝ) : List Swatch :=
  let lk := CompleteLinkage.new p.swatches Swatch.distance
  let dendro := fitWithLinkage p.swatches lk
  (Dendrogram.partition dendro n).map fun nd =>
    findSwatch p.swatches dendro scoreFn (dendro.length + 1) nd.label

/-- Insertion step for the stable descending sort on population
(`sort_by_key` with `Reverse`, a stable sort in Rust). -/
noncomputable def insertSwatchPopDesc (s : Swatch) : List Swatch → List Swatch
  | [] => [s]
  | t :: ts =>
    if s.population > t.population then s :: t :: ts else t :: insertSwatchPopDesc s ts

/-- Stable descending sort on population. -/
noncomputable def sortSwatchesPopDesc : List Swatch → List Swatch
  | [] => []
  | s :: ss => insertSwatchPopDesc s (sortSwatchesPopDesc ss)

/-- Insertion step for the stable descending sort on a real-valued score
(`sort_by` on the reversed `partial_cmp`, a stable sort in Rust). -/
noncomputable def insertSwatchScoreDesc (w : Swatch → ℝ) (s : Swatch) :
    List Swatch → List Swatch
  | [] => [s]
  | t :: ts => if w s > w t then s :: t :: ts else t :: insertSwatchScoreDesc w s ts

/-- Stable descending sort on a real-valued score. -/
noncomputable def sortSwatchesScoreDesc (w : Swatch → ℝ) : List Swatch → List Swatch
  | [] => []
  | s :: ss => insertSwatchScoreDesc w s (sortSwatchesScoreDesc w ss)

/-- `Palette::swatches`. -/
noncomputable def Palette.swatchesN (p : Palette) (n : ℕ) : List Swatch :=
  if p.swatches.isEmpty then []
  else
    sortSwatchesPopDesc (p.findSwatches n fun swatch => (swatch.population : ℝ))

/-- `Palette::swatches_with_theme`. -/
noncomputable def Palette.swatchesWithTheme (p : Palette) (n : ℕ) (theme : Theme) :
    List Swatch :=
  if p.swatches.isEmpty then []
  else
    (sortSwatchesScoreDesc theme.weight (p.findSwatches n theme.weight)).take n

/-! ## Auxiliary definitions for the claims -/

/-- The metric prescribed by the spec for the de-duplication stage: the
CIEDE2000 difference of two 3-D Lab points.  The repository's
`DistanceMetric` enum has no such variant, so the function is injected
directly into the metric-generic DBSCAN core. -/
noncomputable def ciede2000Dist (p q : Pt) : ℝ :=
  ciede2000 ⟨p 0, p 1, p 2⟩ ⟨q 0, q 1, q 2⟩

/-- Modelled from the spec: stage C as the spec describes it, namely DBSCAN
with `min_samples = 1` and radius 2.3 measured under CIEDE2000 on the
candidate Lab colors (the code instead passes
`DistanceMetric::Euclidean`). -/
noncomputable def specStageC (colors : List Pt) : List (Cluster ℝ Pt) × List ℕ :=
  dbscanFit 3 ciede2000Dist 1 2.3 colors

/-- The 2×2 fully opaque RGBA fixture of `palette.rs::tests::test_extract`:
red, green, blue and white pixels. -/
def flagImageData : ImageData :=
  ⟨2, 2, 4, [255, 0, 0, 255, 0, 255, 0, 255, 0, 0, 255, 255, 255, 255, 255, 255]⟩

/-- Leaves reachable from a dendrogram node label (transitive membership);
fuel-bounded recursion over child labels, which strictly decrease in every
well-formed dendrogram. -/
noncomputable def leavesOfD (nodes : List Node) (leafCount : ℕ) :
    ℕ → ℕ → Finset ℕ
  | 0, _ => ∅
  | fuel + 1, i =>
    if i < leafCount then {i}
    else
      match (nodes.getD i default).node1, (nodes.getD i default).node2 with
      | some j, some k =>
        leavesOfD nodes leafCount fuel j ∪ leavesOfD nodes leafCount fuel k
      | _, _ => ∅

/-- Leaves of a node label with the canonical fuel. -/
noncomputable def leavesOf (nodes : List Node) (leafCount : ℕ) (i : ℕ) : Finset ℕ :=
  leavesOfD nodes leafCount (i + 1) i

/-- Well-formedness of a dendrogram over `leafCount` leaves, as established
by `HierarchicalClustering::fit_with_linkage`: `2·leafCount - 1` nodes,
labelled by position, leaf nodes first with no children and distance zero,
merge nodes with two strictly smaller children whose leaf sets are
disjoint, and the last node covering every leaf. -/
def DendroWF (nodes : List Node) (leafCount : ℕ) : Prop :=
  1 ≤ leafCount ∧
  nodes.length = 2 * leafCount - 1 ∧
  (∀ i, i < leafCount → nodes.getD i default = ⟨i, none, none, 0⟩) ∧
  (∀ i, leafCount ≤ i → i < nodes.length →
    (nodes.getD i default).label = i ∧
    ∃ j k, (nodes.getD i default).node1 = some j ∧
      (nodes.getD i default).node2 = some k ∧ j < i ∧ k < i ∧
      Disjoint (leavesOf nodes leafCount j) (leavesOf nodes leafCount k)) ∧
  leavesOf nodes leafCount (nodes.length - 1) = Finset.range leafCount

/-- The dendrogram a hierarchical run over two distinct items produces:
two leaves and one merge node at distance `1`. -/
def pairDendrogram : List Node :=
  [⟨0, none, none, 0⟩, ⟨1, none, none, 0⟩, ⟨2, some 0, some 1, 1⟩]

/-- A palette of two swatches with distinct colors (a dark and a light
gray) and populations 2 and 1. -/
def twoSwatchPalette : Palette :=
  ⟨[⟨⟨0, 0, 0⟩, (0, 0), 2⟩, ⟨⟨50, 0, 0⟩, (1, 1), 1⟩]⟩

/-- A 6-point planar set on which the k-d tree search diverges from the
brute-force linear search (all six distances to the query below are
pairwise distinct). -/
noncomputable def c6pts : List Pt :=
  [mkPt3 2 4 0, mkPt3 0 7 0, mkPt3 4 5 0, mkPt3 7 2 0, mkPt3 3 2 0,
    mkPt3 3 1 0]

/-- The query point for the 6-point instance. -/
noncomputable def c6query : Pt := mkPt3 3 4 0

/-- A 4-point planar set on which DBSCAN with `min_samples = 1` and an
epsilon no smaller than every pairwise distance still loses a point. -/
noncomputable def c9pts : List Pt :=
  [mkPt3 (1 / 8) 0 0, mkPt3 (1 / 8) (1 / 8) 0, mkPt3 (1 / 4) (1 / 8) 0,
    mkPt3 0 (1 / 4) 0]

/-- Axis-0 value function of the 6-point set, as `build_node` forms it. -/
noncomputable def c6vx : ℕ → ℝ := fun i => (c6pts.getD i zeroPt) 0

/-- Axis-1 value function of the 6-point set. -/
noncomputable def c6vy : ℕ → ℝ := fun i => (c6pts.getD i zeroPt) 1

/-- Axis-0 value function of the 4-point set. -/
noncomputable def c9vx : ℕ → ℝ := fun i => (c9pts.getD i zeroPt) 0

/-- Axis-1 value function of the 4-point set. -/
noncomputable def c9vy : ℕ → ℝ := fun i => (c9pts.getD i zeroPt) 1

/-- Two candidate Lab colors whose Euclidean distance is 2.2 (within the
2.3 radius) but whose CIEDE2000 difference exceeds 2.3. -/
noncomputable def c2colors : List Pt := [mkPt3 50 0 0, mkPt3 50 2.2 0]

/-- Axis-0 value function of the two candidate colors. -/
noncomputable def c2vx : ℕ → ℝ := fun i => (c2colors.getD i zeroPt) 0

/-- Axis-1 value function of the two candidate colors. -/
noncomputable def c2vy : ℕ → ℝ := fun i => (c2colors.getD i zeroPt) 1

/-! # Theorems -/

/-! ## CIEDE2000: reflexivity and symmetry (claim C7) -/

theorem toRadians_zero : toRadians 0 = 0 := by
  simp [toRadians]

theorem toRadians_neg (x : ℝ) : toRadians (-x) = -toRadians x := by
  unfold toRadians; ring

theorem deltaHueSmall_self (c h : ℝ) : deltaHueSmall c c h h = 0 := by
  unfold deltaHueSmall
  by_cases h0 : c = 0 ∨ c = 0 <;> simp [h0]

theorem deltaHueSmall_swap (c1p c2p h1p h2p : ℝ) :
    deltaHueSmall c2p c1p h2p h1p = -deltaHueSmall c1p c2p h1p h2p := by
  unfold deltaHueSmall
  by_cases h0 : c1p = 0 ∨ c2p = 0
  · have h0' : c2p = 0 ∨ c1p = 0 := h0.symm
    simp [h0, h0']
  · have h0' : ¬(c2p = 0 ∨ c1p = 0) := fun h => h0 h.symm
    simp only [if_neg h0, if_neg h0']
    by_cases habs : |h2p - h1p| ≤ 180
    · have habs' : |h1p - h2p| ≤ 180 := by rwa [abs_sub_comm]
      simp only [if_pos habs, if_pos habs']
      ring
    · have habs' : ¬ |h1p - h2p| ≤ 180 := by rwa [abs_sub_comm]
      simp only [if_neg habs, if_neg habs']
      by_cases hle : h2p ≤ h1p
      · have hlt : h2p < h1p := by
          rcases lt_or_eq_of_le hle with h | h
          · exact h
          · exfalso; apply habs; simp [h]
        have hle' : ¬ h1p ≤ h2p := not_le.mpr hlt
        simp only [if_pos hle, if_neg hle']
        ring
      · have hle' : h1p ≤ h2p := le_of_lt (not_le.mp hle)
        simp only [if_neg hle, if_pos hle']
        ring

theorem hBarPrimeOf_swap (h1p h2p : ℝ) : hBarPrimeOf h2p h1p = hBarPrimeOf h1p h2p := by
  unfold hBarPrimeOf
  rw [abs_sub_comm]
  by_cases h : |h1p - h2p| > 180 <;> simp [h] <;> ring

theorem ciede2000_self (x : Lab) : ciede2000 x x = 0 := by
  simp only [ciede2000, deltaHueSmall_self, sub_self, toRadians_zero, zero_div,
    Real.sin_zero, mul_zero, zero_mul, add_zero, zero_add, Real.sqrt_zero]

theorem ciede2000_comm (x y : Lab) : ciede2000 x y = ciede2000 y x := by
  simp only [ciede2000]
  rw [add_comm (chromaOf y.a y.b) (chromaOf x.a x.b)]
  rw [add_comm y.l x.l]
  rw [add_comm
    (chromaOf (y.a + y.a / 2 *
      (1 - gFactor ((chromaOf x.a x.b + chromaOf y.a y.b) / 2))) y.b)
    (chromaOf (x.a + x.a / 2 *
      (1 - gFactor ((chromaOf x.a x.b + chromaOf y.a y.b) / 2))) x.b)]
  rw [deltaHueSmall_swap, hBarPrimeOf_swap]
  rw [mul_comm
    (chromaOf (y.a + y.a / 2 *
      (1 - gFactor ((chromaOf x.a x.b + chromaOf y.a y.b) / 2))) y.b)
    (chromaOf (x.a + x.a / 2 *
      (1 - gFactor ((chromaOf x.a x.b + chromaOf y.a y.b) / 2))) x.b)]
  rw [toRadians_neg, neg_div, Real.sin_neg]
  congr 1
  ring

/-- Claim C7: the CIEDE2000 difference of the source vanishes on equal
colors and is symmetric in its two arguments. -/
theorem ciede2000_refl_and_symm :
    (∀ x : Lab, ciede2000 x x = 0) ∧
      ∀ x y : Lab, ciede2000 x y = ciede2000 y x :=
  ⟨ciede2000_self, ciede2000_comm⟩

/-! ## Cluster centroid invariant (claim C8) -/

theorem cluster_insertAll_membership {F P : Type} [Field F] [AddCommGroup P]
    [Module F P] (c : Cluster F P) (ps : List (ℕ × P)) :
    (c.insertAll ps).membership = c.membership ++ ps.map Prod.fst := by
  induction ps generalizing c with
  | nil => simp [Cluster.insertAll]
  | cons ip rest ih =>
    simp only [Cluster.insertAll, List.foldl_cons] at *
    rw [ih (c.insert ip.1 ip.2)]
    simp [Cluster.insert]

/-- Claim C8: starting from any freshly created cluster, after at least one
insertion the centroid is exactly the arithmetic mean of the inserted
points, the membership records exactly the inserted indices, and `clear`
re-establishes the zero/empty state.  (`insert` and `clear` are the only
mutating operations of the struct.) -/
theorem cluster_centroid_mean {F P : Type} [Field F] [CharZero F] [AddCommGroup P]
    [Module F P] (c0 : P) (ps : List (ℕ × P)) (hps : ps ≠ []) :
    (Cluster.insertAll (F := F) (Cluster.new c0) ps).centroid =
        ((ps.length : F))⁻¹ • (ps.map Prod.snd).sum ∧
      (Cluster.insertAll (F := F) (Cluster.new c0) ps).membership = ps.map Prod.fst ∧
      ∀ c : Cluster F P, (c.clear).centroid = 0 ∧ (c.clear).membership = [] := by
  refine ⟨?_, ?_, fun c => ⟨rfl, rfl⟩⟩
  · induction ps using List.reverseRecOn with
    | nil => exact absurd rfl hps
    | append_singleton l ip ih =>
      have hfold : Cluster.insertAll (F := F) (Cluster.new c0) (l ++ [ip]) =
          (Cluster.insertAll (F := F) (Cluster.new c0) l).insert ip.1 ip.2 := by
        simp [Cluster.insertAll, List.foldl_append]
      rcases eq_or_ne l [] with hl | hl
      · subst hl
        simp [Cluster.insertAll, Cluster.insert, Cluster.new]
      · have hlen : (Cluster.insertAll (F := F) (Cluster.new c0) l).membership.length
            = l.length := by
          rw [cluster_insertAll_membership]
          simp [Cluster.new]
        have hcent := ih hl
        have hlpos : (l.length : F) ≠ 0 := by
          exact_mod_cast Nat.cast_ne_zero.mpr (by
            simpa [List.length_eq_zero] using hl)
        rw [hfold]
        simp only [Cluster.insert, hlen, hcent]
        rw [smul_smul, mul_inv_cancel₀ hlpos, one_smul]
        simp [List.sum_append, add_comm]
  · rw [cluster_insertAll_membership]
    simp [Cluster.new]

/-- Concrete instance discharging the hypothesis of the cluster-centroid
theorem: two insertions into a fresh rational cluster. -/
theorem cluster_centroid_mean_witness :
    ([((0 : ℕ), (4 : ℚ)), (1, 10)] : List (ℕ × ℚ)) ≠ [] ∧
      ((Cluster.insertAll (F := ℚ) (Cluster.new 5)
            [((0 : ℕ), (4 : ℚ)), (1, 10)]).centroid =
          ((([((0 : ℕ), (4 : ℚ)), (1, 10)] : List (ℕ × ℚ)).length : ℚ))⁻¹ •
            (([((0 : ℕ), (4 : ℚ)), (1, 10)] : List (ℕ × ℚ)).map Prod.snd).sum ∧
        (Cluster.insertAll (F := ℚ) (Cluster.new 5)
            [((0 : ℕ), (4 : ℚ)), (1, 10)]).membership =
          ([((0 : ℕ), (4 : ℚ)), (1, 10)] : List (ℕ × ℚ)).map Prod.fst ∧
        ∀ c : Cluster ℚ ℚ, (c.clear).centroid = 0 ∧ (c.clear).membership = []) :=
  ⟨by decide, cluster_centroid_mean (F := ℚ) 5 [((0 : ℕ), (4 : ℚ)), (1, 10)]
    (by decide)⟩

/-! ## Length bounds for the k-d tree machinery -/

theorem listSwap_length (s : List ℕ) (i j : ℕ) :
    (listSwap s i j).length = s.length := by
  simp [listSwap]

theorem hoareLoop_fst_length (vf : ℕ → ℝ) (pv : ℝ) (s : List ℕ) (left : ℕ)
    (right : ℤ) : (hoareLoop vf pv s left right).1.length = s.length := by
  induction s, left, right using hoareLoop.induct vf pv with
  | case1 s left right hlr l r h2 ih =>
    rw [hoareLoop]
    simp only [dif_pos hlr, dif_pos h2]
    rw [ih]
    exact listSwap_length s l.1 r.1.toNat
  | case2 s left right hlr l r h2 =>
    rw [hoareLoop]
    simp [hlr, h2]
  | case3 s left right hlr =>
    rw [hoareLoop]
    simp [hlr]

theorem partitionByKey_fst_length (vf : ℕ → ℝ) (s : List ℕ) :
    (partitionByKey vf s).1.length = s.length := by
  unfold partitionByKey
  exact hoareLoop_fst_length vf _ s 0 _

theorem findNthIndex_fst_length (vf : ℕ → ℝ) :
    ∀ (fuel : ℕ) (s : List ℕ) (n : ℕ),
      (findNthIndex fuel vf s n).1.length = s.length := by
  intro fuel
  induction fuel with
  | zero => intro s n; rfl
  | succ fuel ih =>
    intro s n
    rw [findNthIndex]
    by_cases h1 : s.length ≤ 1
    · simp [h1]
    · simp only [if_neg h1]
      have hp := partitionByKey_fst_length vf s
      by_cases h2 : n < (partitionByKey vf s).2
      · simp only [if_pos h2, List.length_append, ih, List.length_take,
          List.length_drop]
        omega
      · by_cases h3 : n > (partitionByKey vf s).2
        · simp only [if_neg h2, if_pos h3, List.length_append, ih,
            List.length_take, List.length_drop]
          omega
        · simp [h2, h3, hp]

theorem buildNode_indices_length_le (d : ℕ) (pts : List Pt) :
    ∀ (fuel : ℕ) (indices : List ℕ) (depth : ℕ),
      (buildNode fuel d pts indices depth).indices.length ≤ indices.length := by
  intro fuel
  induction fuel with
  | zero => intro indices depth; simp [buildNode, KDT.indices]
  | succ fuel ih =>
    intro indices depth
    rw [buildNode]
    by_cases h : indices.isEmpty
    · simp [h, KDT.indices]
    · simp only [if_neg h, KDT.indices, List.length_cons, List.length_append]
      have hne : indices.length ≠ 0 := by
        simpa [List.isEmpty_iff, List.length_eq_zero] using h
      have hfm := findNthIndex_fst_length
        (fun i => (pts.getD i zeroPt) (depth % d)) indices.length indices
        (indices.length / 2)
      have h1 := ih ((findNthIndex indices.length
        (fun i => (pts.getD i zeroPt) (depth % d)) indices
        (indices.length / 2)).1.take (indices.length / 2)) (depth + 1)
      have h2 := ih ((findNthIndex indices.length
        (fun i => (pts.getD i zeroPt) (depth % d)) indices
        (indices.length / 2)).1.drop (indices.length / 2 + 1)) (depth + 1)
      simp only [List.length_take, List.length_drop, hfm] at h1 h2
      have hmed : indices.length / 2 < indices.length := by omega
      omega

theorem kdSearchRadiusRec_length_le (pts : List Pt) (dist : Pt → Pt → ℝ)
    (query : Pt) (radius : ℝ) :
    ∀ (t : KDT) (ns : List Neighbor),
      (kdSearchRadiusRec pts dist query radius t ns).length ≤
        ns.length + t.indices.length := by
  intro t
  induction t with
  | nil => intro ns; simp [kdSearchRadiusRec, KDT.indices]
  | node i ax l r ihl ihr =>
    intro ns
    rw [kdSearchRadiusRec]
    simp only [KDT.indices, List.length_cons, List.length_append]
    have hns1 : (if dist (pts.getD i zeroPt) query ≤ radius then
        ns ++ [Neighbor.mk i (dist (pts.getD i zeroPt) query)] else ns).length ≤
        ns.length + 1 := by
      split <;> simp
    have hl := ihl (if dist (pts.getD i zeroPt) query ≤ radius then
      ns ++ [Neighbor.mk i (dist (pts.getD i zeroPt) query)] else ns)
    have hr := ihr (if dist (pts.getD i zeroPt) query ≤ radius then
      ns ++ [Neighbor.mk i (dist (pts.getD i zeroPt) query)] else ns)
    have hlr := ihr (kdSearchRadiusRec pts dist query radius l
      (if dist (pts.getD i zeroPt) query ≤ radius then
        ns ++ [Neighbor.mk i (dist (pts.getD i zeroPt) query)] else ns))
    split
    · omega
    · split
      · omega
      · omega

theorem kdSearchRadius_length_le (pts : List Pt) (dims : ℕ)
    (dist : Pt → Pt → ℝ) (query : Pt) (radius : ℝ) :
    (kdSearchRadius pts dist (kdBuild dims pts) query radius).length ≤
      pts.length := by
  unfold kdSearchRadius kdBuild
  split
  · simp
  · have h1 := kdSearchRadiusRec_length_le pts dist query radius
      (buildNode (pts.length + 1) dims pts (List.range pts.length) 0) []
    have h2 := buildNode_indices_length_le dims pts (pts.length + 1)
      (List.range pts.length) 0
    simp only [List.length_nil, zero_add, List.length_range] at h1 h2
    omega

/-! ## DBSCAN with too few samples labels everything an outlier -/

theorem dbscanMainLoop_small (dims : ℕ) (pts : List Pt) (dist : Pt → Pt → ℝ)
    (eps : ℝ) (minSamples : ℕ) (hsmall : pts.length < minSamples) :
    ∀ (idxs : List ℕ) (labels : List Label) (cid : ℕ),
      (∀ i ∈ idxs, labels.getD i .undefined = .undefined) →
      idxs.Nodup →
      dbscanMainLoop dims pts dist eps minSamples (kdBuild dims pts) idxs
          (labels, cid) =
        (idxs.foldl (fun ls i => ls.set i Label.outlier) labels, cid) := by
  intro idxs
  induction idxs with
  | nil => intro labels cid _ _; rfl
  | cons index rest ih =>
    intro labels cid hundef hnodup
    rw [dbscanMainLoop]
    have hu : (labels.getD index .undefined).isUndefined = true := by
      rw [hundef index (List.mem_cons_self _ _)]; rfl
    have hlen := kdSearchRadius_length_le pts dims dist (pts.getD index zeroPt) eps
    have hlt : (kdSearchRadius pts dist (kdBuild dims pts)
        (pts.getD index zeroPt) eps).length < minSamples := by omega
    have hrest1 : ∀ i ∈ rest, (labels.set index Label.outlier).getD i .undefined =
        .undefined := by
      intro i hi
      have hne : i ≠ index := by
        intro he
        subst he
        exact (List.nodup_cons.mp hnodup).1 hi
      rw [List.getD_eq_getElem?_getD, List.getElem?_set_ne (Ne.symm hne),
        ← List.getD_eq_getElem?_getD]
      exact hundef i (List.mem_cons_of_mem _ hi)
    have hrest2 : rest.Nodup := (List.nodup_cons.mp hnodup).2
    simp only [hu, not_true, Bool.false_eq_true, if_false, if_pos hlt,
      List.foldl_cons]
    exact ih (labels.set index Label.outlier) cid hrest1 hrest2

theorem dbscanFit_small (dims : ℕ) (dist : Pt → Pt → ℝ) (minSamples : ℕ)
    (eps : ℝ) (pts : List Pt) (hne : ¬ pts.isEmpty)
    (hsmall : pts.length < minSamples) :
    dbscanFit dims dist minSamples eps pts = ([], List.range pts.length) := by
  unfold dbscanFit
  simp only [if_neg hne]
  rw [dbscanMainLoop_small dims pts dist eps minSamples hsmall
    (List.range pts.length) (List.replicate pts.length .undefined) 0
    (fun i _ => by
      rw [List.getD_eq_getElem?_getD]
      rcases Nat.lt_or_ge i pts.length with h | h
      · simp [List.getElem?_replicate, h]
      · rw [List.getElem?_eq_none]
        · rfl
        · simpa using h)
    (List.nodup_range _)]
  simp only [Prod.mk.injEq]
  constructor
  · simp
  · have hall : ∀ (idxs : List ℕ) (labels : List Label),
        (∀ i ∈ idxs, i < labels.length) →
        ∀ i ∈ idxs,
          (idxs.foldl (fun ls j => ls.set j Label.outlier) labels).getD i
            .undefined = .outlier := by
      intro idxs
      induction idxs with
      | nil => intro _ _ i hi; exact absurd hi (List.not_mem_nil i)
      | cons a rest ihh =>
        intro labels hlt i hi
        simp only [List.foldl_cons]
        rcases List.mem_cons.mp hi with he | hm
        · subst he
          by_cases hmem : i ∈ rest
          · exact ihh (labels.set i .outlier)
              (fun j hj => by simpa using hlt j (List.mem_cons_of_mem _ hj))
              i hmem
          · have huntouched : ∀ (idxs2 : List ℕ) (ls : List Label), i ∉ idxs2 →
                (idxs2.foldl (fun ls j => ls.set j Label.outlier) ls).getD i
                  .undefined = ls.getD i .undefined := by
              intro idxs2
              induction idxs2 with
              | nil => intro ls _; rfl
              | cons b bs ihb =>
                intro ls hnm
                simp only [List.foldl_cons]
                rw [ihb _ (fun h => hnm (List.mem_cons_of_mem _ h))]
                rw [List.getD_eq_getElem?_getD,
                  List.getElem?_set_ne
                    (fun h : b = i => hnm (List.mem_cons.mpr (Or.inl h.symm))),
                  ← List.getD_eq_getElem?_getD]
            rw [huntouched rest _ hmem]
            have hilen : i < labels.length := hlt i (List.mem_cons_self _ _)
            rw [List.getD_eq_getElem?_getD, List.getElem?_set_self',
              List.getElem?_eq_getElem hilen]
            simp [Function.const]
        · exact ihh (labels.set a .outlier)
            (fun j hj => by simpa using hlt j (List.mem_cons_of_mem _ hj)) i hm
    refine List.filter_eq_self.mpr ?_
    intro i hi
    rw [decide_eq_true_eq]
    exact hall (List.range pts.length) _
      (fun j hj => by simpa [List.length_replicate] using List.mem_range.mp hj)
      i hi

/-! ## Extraction on the four-color 2×2 image (claim C1) -/

set_option maxRecDepth 8000 in
theorem chunksExact_flag :
    chunksExact flagImageData.channels flagImageData.data =
      [[255, 0, 0, 255], [0, 255, 0, 255], [0, 0, 255, 255],
        [255, 255, 255, 255]] := by
  simp [flagImageData, chunksExact]

set_option maxRecDepth 8000 in
theorem convertToPixels_flag_length : (convertToPixels flagImageData).length = 4 := by
  unfold convertToPixels
  rw [chunksExact_flag]
  simp +decide [List.enum, List.enumFrom]

theorem palette_extract_flag_empty : Palette.extract flagImageData = ⟨[]⟩ := by
  have hlen := convertToPixels_flag_length
  have hne : ¬ (convertToPixels flagImageData).isEmpty = true := by
    rw [List.isEmpty_iff]
    intro h
    rw [h] at hlen
    simp at hlen
  unfold Palette.extract Palette.extractWithAlgorithm
  simp only [Algorithm.apply, clusterWithDbscan, DBSCAN.fit]
  rw [dbscanFit_small 5 _ 16 _ _ hne (by rw [hlen]; norm_num)]
  simp [stageC, DBSCAN.fit, dbscanFit]

/-- Counterexample to claim C1: on the 2×2 red/green/blue/white image the
default extraction yields no swatches at all, so requesting 4 swatches does
not return 4 and requesting 1 does not return a merged swatch of
population 4. -/
theorem extract_flag_not_four_swatches :
    ((Palette.extract flagImageData).swatchesN 4).length ≠ 4 ∧
      ((Palette.extract flagImageData).swatchesN 1).length ≠ 1 := by
  rw [palette_extract_flag_empty]
  constructor <;> simp [Palette.swatchesN]

/-- Claim C1 amended: the pipeline's default DBSCAN parameters
(`min_samples = 16`) treat all four pixels of the 2×2 flag image as
outliers, so extraction returns the empty palette and both swatch requests
return no swatches — exactly what the repository's own
`tests::test_extract` asserts. -/
theorem extract_flag_empty_palette :
    (Palette.extract flagImageData).isEmpty = true ∧
      (Palette.extract flagImageData).swatchesN 4 = [] ∧
      (Palette.extract flagImageData).swatchesN 1 = [] := by
  rw [palette_extract_flag_empty]
  refine ⟨rfl, ?_, ?_⟩ <;> simp [Palette.swatchesN]

/-! ## Dendrogram partition (claim C4) -/

theorem popFirstMaxBy_eq_none {α β : Type} [LinearOrder β] (p : α → β)
    (l : List α) : popFirstMaxBy p l = none ↔ l = [] := by
  cases l with
  | nil => simp [popFirstMaxBy]
  | cons x xs =>
    simp only [popFirstMaxBy]
    cases popFirstMaxBy p xs with
    | none => simp
    | some yr =>
      by_cases h : p yr.1 > p x <;> simp [h]

theorem popFirstMaxBy_perm {α β : Type} [LinearOrder β] (p : α → β) :
    ∀ {l : List α} {x : α} {rest : List α},
      popFirstMaxBy p l = some (x, rest) → l.Perm (x :: rest) := by
  intro l
  induction l with
  | nil => intro x rest h; simp [popFirstMaxBy] at h
  | cons a as ih =>
    intro x rest h
    simp only [popFirstMaxBy] at h
    cases hpop : popFirstMaxBy p as with
    | none =>
      rw [hpop] at h
      simp only [Option.some.injEq, Prod.mk.injEq] at h
      obtain ⟨rfl, rfl⟩ := h
      have : as = [] := (popFirstMaxBy_eq_none p as).mp hpop
      rw [this]
    | some yr =>
      obtain ⟨y, r⟩ := yr
      rw [hpop] at h
      dsimp only at h
      by_cases hgt : p y > p a
      · rw [if_pos hgt] at h
        simp only [Option.some.injEq, Prod.mk.injEq] at h
        obtain ⟨rfl, rfl⟩ := h
        exact ((ih hpop).cons a).trans (List.Perm.swap _ a r)
      · rw [if_neg hgt] at h
        simp only [Option.some.injEq, Prod.mk.injEq] at h
        obtain ⟨rfl, rfl⟩ := h
        exact List.Perm.refl _

theorem popFirstMaxBy_is_max {α β : Type} [LinearOrder β] (p : α → β) :
    ∀ {l : List α} {x : α} {rest : List α},
      popFirstMaxBy p l = some (x, rest) → ∀ y ∈ l, p y ≤ p x := by
  intro l
  induction l with
  | nil => intro x rest h; simp [popFirstMaxBy] at h
  | cons a as ih =>
    intro x rest h y hy
    simp only [popFirstMaxBy] at h
    cases hpop : popFirstMaxBy p as with
    | none =>
      rw [hpop] at h
      simp only [Option.some.injEq, Prod.mk.injEq] at h
      obtain ⟨rfl, rfl⟩ := h
      have : as = [] := (popFirstMaxBy_eq_none p as).mp hpop
      subst this
      rcases List.mem_singleton.mp hy with rfl
      exact le_refl _
    | some yr =>
      obtain ⟨z, r⟩ := yr
      rw [hpop] at h
      dsimp only at h
      by_cases hgt : p z > p a
      · rw [if_pos hgt] at h
        simp only [Option.some.injEq, Prod.mk.injEq] at h
        obtain ⟨rfl, rfl⟩ := h
        rcases List.mem_cons.mp hy with rfl | hmem
        · exact le_of_lt hgt
        · exact ih hpop y hmem
      · rw [if_neg hgt] at h
        simp only [Option.some.injEq, Prod.mk.injEq] at h
        obtain ⟨rfl, rfl⟩ := h
        rcases List.mem_cons.mp hy with rfl | hmem
        · exact le_refl _
        · exact le_trans (ih hpop y hmem) (not_lt.mp hgt)

theorem mem_foldr_union {α : Type} (S : α → Finset ℕ) (l : List α) (x : ℕ) :
    x ∈ l.foldr (fun nd acc => S nd ∪ acc) ∅ ↔ ∃ nd ∈ l, x ∈ S nd := by
  induction l with
  | nil => simp
  | cons a as ih => simp [ih]

theorem foldr_union_perm {α : Type} (S : α → Finset ℕ) {l₁ l₂ : List α}
    (h : l₁.Perm l₂) :
    l₁.foldr (fun nd acc => S nd ∪ acc) ∅ =
      l₂.foldr (fun nd acc => S nd ∪ acc) ∅ := by
  ext x
  rw [mem_foldr_union, mem_foldr_union]
  constructor
  · rintro ⟨nd, hnd, hx⟩; exact ⟨nd, h.mem_iff.mp hnd, hx⟩
  · rintro ⟨nd, hnd, hx⟩; exact ⟨nd, h.mem_iff.mpr hnd, hx⟩

theorem foldr_union_card_le {α : Type} (S : α → Finset ℕ) (l : List α)
    (h : ∀ nd ∈ l, (S nd).card ≤ 1) :
    (l.foldr (fun nd acc => S nd ∪ acc) ∅).card ≤ l.length := by
  induction l with
  | nil => simp
  | cons a as ih =>
    simp only [List.foldr_cons, List.length_cons]
    calc (S a ∪ as.foldr (fun nd acc => S nd ∪ acc) ∅).card
        ≤ (S a).card + (as.foldr (fun nd acc => S nd ∪ acc) ∅).card :=
          Finset.card_union_le _ _
      _ ≤ 1 + as.length := by
          have h1 := h a (List.mem_cons_self a as)
          have h2 := ih fun nd hnd => h nd (List.mem_cons_of_mem a hnd)
          omega
      _ = as.length + 1 := by omega

theorem leavesOf_leaf (nodes : List Node) (L i : ℕ) (hi : i < L) :
    leavesOf nodes L i = {i} := by
  simp [leavesOf, leavesOfD, hi]

theorem leavesOfD_stable (nodes : List Node) (L : ℕ) (hwf : DendroWF nodes L) :
    ∀ i, i < nodes.length → ∀ fuel, i + 1 ≤ fuel →
      leavesOfD nodes L fuel i = leavesOf nodes L i := by
  intro i
  induction i using Nat.strong_induction_on with
  | _ i ih =>
    intro hilen fuel hfuel
    obtain ⟨f, rfl⟩ : ∃ f, fuel = f + 1 := ⟨fuel - 1, by omega⟩
    by_cases hiL : i < L
    · simp [leavesOfD, leavesOf, hiL]
    · obtain ⟨hL1, hlen, hleaf, hint, hroot⟩ := hwf
      obtain ⟨hlab, j, k, hj, hk, hji, hki, hdisj⟩ :=
        hint i (not_lt.mp hiL) hilen
      have hjlen : j < nodes.length := lt_trans hji hilen
      have hklen : k < nodes.length := lt_trans hki hilen
      have hstep : ∀ g, i ≤ g →
          leavesOfD nodes L (g + 1) i =
            leavesOfD nodes L g j ∪ leavesOfD nodes L g k := by
        intro g hg
        simp only [leavesOfD, if_neg hiL, hj, hk]
      rw [hstep f (by omega)]
      have hrhs : leavesOf nodes L i =
          leavesOfD nodes L i j ∪ leavesOfD nodes L i k := by
        have := hstep i (le_refl i)
        simpa [leavesOf] using this
      rw [hrhs]
      rw [ih j hji hjlen f (by omega), ih k hki hklen f (by omega),
        ih j hji hjlen i (by omega), ih k hki hklen i (by omega)]

theorem leavesOf_merge (nodes : List Node) (L i : ℕ) (hwf : DendroWF nodes L)
    (hL : L ≤ i) (hilen : i < nodes.length) {j k : ℕ}
    (hj : (nodes.getD i default).node1 = some j)
    (hk : (nodes.getD i default).node2 = some k) :
    leavesOf nodes L i = leavesOf nodes L j ∪ leavesOf nodes L k := by
  obtain ⟨hL1, hlen, hleaf, hint, hroot⟩ := hwf
  obtain ⟨hlab, j', k', hj', hk', hji, hki, hdisj⟩ := hint i hL hilen
  have hjj : j = j' := by rw [hj] at hj'; exact Option.some_inj.mp hj'
  have hkk : k = k' := by rw [hk] at hk'; exact Option.some_inj.mp hk'
  subst hjj; subst hkk
  have hiL : ¬ i < L := not_lt.mpr hL
  have hstep : leavesOfD nodes L (i + 1) i =
      leavesOfD nodes L i j ∪ leavesOfD nodes L i k := by
    simp only [leavesOfD, if_neg hiL, hj, hk]
  rw [leavesOf, hstep,
    leavesOfD_stable nodes L ⟨hL1, hlen, hleaf, hint, hroot⟩ j
      (lt_trans hji hilen) i (by omega),
    leavesOfD_stable nodes L ⟨hL1, hlen, hleaf, hint, hroot⟩ k
      (lt_trans hki hilen) i (by omega)]

theorem label_getD (nodes : List Node) (L i : ℕ) (hwf : DendroWF nodes L)
    (hilen : i < nodes.length) : (nodes.getD i default).label = i := by
  obtain ⟨hL1, hlen, hleaf, hint, hroot⟩ := hwf
  by_cases hiL : i < L
  · rw [hleaf i hiL]
  · exact (hint i (not_lt.mp hiL) hilen).1

theorem partLoop_spec (nodes : List Node) (L n : ℕ) (hwf : DendroWF nodes L)
    (hpos : ∀ i, L ≤ i → i < nodes.length →
      0 < (nodes.getD i default).distance)
    (h1 : 1 ≤ n) (hn : n ≤ L) :
    ∀ fuel heap,
      (∀ nd ∈ heap, nd.label < nodes.length ∧
        nodes.getD nd.label default = nd) →
      List.Pairwise (fun a b =>
        Disjoint (leavesOf nodes L a.label) (leavesOf nodes L b.label)) heap →
      heap.foldr (fun nd acc => leavesOf nodes L nd.label ∪ acc) ∅ =
        Finset.range L →
      1 ≤ heap.length → heap.length ≤ n → n + 1 ≤ fuel + heap.length →
      (partLoop nodes n fuel heap []).length = n ∧
      List.Pairwise (fun a b =>
        Disjoint (leavesOf nodes L a.label) (leavesOf nodes L b.label))
        (partLoop nodes n fuel heap []) ∧
      (partLoop nodes n fuel heap []).foldr
        (fun nd acc => leavesOf nodes L nd.label ∪ acc) ∅ =
        Finset.range L := by
  intro fuel
  induction fuel with
  | zero => intro heap _ _ _ _ hle hfuel; omega
  | succ f ih =>
    intro heap hgen hpw hcov hge1 hlen hfuel
    have hmem0 : ([] : List Node).length < n := by
      simp only [List.length_nil]; omega
    by_cases hflush : n ≤ heap.length + ([] : List Node).length
    · have hexact : heap.length = n := by
        simp only [List.length_nil, add_zero] at hflush; omega
      have heval : partLoop nodes n (f + 1) heap [] = heap := by
        simp only [partLoop, if_pos hmem0, if_pos hflush, List.nil_append]
        exact List.take_of_length_le (le_of_eq hexact)
      rw [heval]
      exact ⟨hexact, hpw, hcov⟩
    · have hlt : heap.length < n := by
        simp only [List.length_nil, add_zero] at hflush; omega
      obtain ⟨nd, heap1, hpop⟩ :
          ∃ nd heap1, popFirstMaxBy Node.distance heap = some (nd, heap1) := by
        cases hp : popFirstMaxBy Node.distance heap with
        | none =>
          have : heap = [] := (popFirstMaxBy_eq_none _ _).mp hp
          rw [this] at hge1; simp at hge1
        | some v =>
          obtain ⟨nd0, hp0⟩ := v
          exact ⟨nd0, hp0, rfl⟩
      have hperm : heap.Perm (nd :: heap1) := popFirstMaxBy_perm _ hpop
      have hmax : ∀ y ∈ heap, y.distance ≤ nd.distance :=
        popFirstMaxBy_is_max _ hpop
      have hndmem : nd ∈ heap := hperm.mem_iff.mpr (List.mem_cons_self _ _)
      obtain ⟨hndlen, hndget⟩ := hgen nd hndmem
      have hndL : L ≤ nd.label := by
        by_contra hc
        have hcL : nd.label < L := not_le.mp hc
        have hnddist : nd.distance = 0 := by
          have := hwf.2.2.1 nd.label hcL
          rw [hndget] at this
          rw [this]
        have hallleaf : ∀ y ∈ heap, y.label < L := by
          intro y hy
          by_contra hyc
          obtain ⟨hylen, hyget⟩ := hgen y hy
          have := hpos y.label (not_lt.mp hyc) hylen
          rw [hyget] at this
          have := hmax y hy
          rw [hnddist] at this
          linarith
        have hcard : (heap.foldr
            (fun nd acc => leavesOf nodes L nd.label ∪ acc) ∅).card ≤
            heap.length := by
          apply foldr_union_card_le
          intro y hy
          rw [leavesOf_leaf nodes L y.label (hallleaf y hy)]
          simp
        rw [hcov, Finset.card_range] at hcard
        omega
      obtain ⟨hlab, j, k, hjD, hkD, hji, hki, hdisj⟩ :=
        hwf.2.2.2.1 nd.label hndL hndlen
      have hj : nd.node1 = some j := by rw [← hndget]; exact hjD
      have hk : nd.node2 = some k := by rw [← hndget]; exact hkD
      have hjlen : j < nodes.length := lt_trans hji hndlen
      have hklen : k < nodes.length := lt_trans hki hndlen
      have hmerge : leavesOf nodes L nd.label =
          leavesOf nodes L j ∪ leavesOf nodes L k :=
        leavesOf_merge nodes L nd.label hwf hndL hndlen hjD hkD
      have hjlab : (nodes.getD j default).label = j :=
        label_getD nodes L j hwf hjlen
      have hklab : (nodes.getD k default).label = k :=
        label_getD nodes L k hwf hklen
      have heval : partLoop nodes n (f + 1) heap [] =
          partLoop nodes n f
            ((heap1 ++ [nodes.getD j default]) ++ [nodes.getD k default]) [] := by
        simp only [partLoop, if_pos hmem0, if_neg hflush, hpop, hj, hk]
      rw [heval]
      have hpw' : List.Pairwise (fun a b =>
          Disjoint (leavesOf nodes L a.label) (leavesOf nodes L b.label))
          (nd :: heap1) := hpw.perm hperm fun h => h.symm
      have hnd1 : ∀ b ∈ heap1,
          Disjoint (leavesOf nodes L nd.label) (leavesOf nodes L b.label) :=
        fun b hb => List.rel_of_pairwise_cons hpw' hb
      have hpw1 : List.Pairwise (fun a b =>
          Disjoint (leavesOf nodes L a.label) (leavesOf nodes L b.label))
          heap1 := hpw'.of_cons
      have hjsub : leavesOf nodes L j ⊆ leavesOf nodes L nd.label := by
        rw [hmerge]; exact Finset.subset_union_left
      have hksub : leavesOf nodes L k ⊆ leavesOf nodes L nd.label := by
        rw [hmerge]; exact Finset.subset_union_right
      apply ih
      · intro x hx
        rcases List.mem_append.mp hx with hx' | hx'
        · rcases List.mem_append.mp hx' with hx'' | hx''
          · exact hgen x (hperm.mem_iff.mpr (List.mem_cons_of_mem _ hx''))
          · rcases List.mem_singleton.mp hx'' with rfl
            exact ⟨by rw [hjlab]; exact hjlen, by rw [hjlab]⟩
        · rcases List.mem_singleton.mp hx' with rfl
          exact ⟨by rw [hklab]; exact hklen, by rw [hklab]⟩
      · rw [List.pairwise_append]
        refine ⟨?_, by simp, ?_⟩
        · rw [List.pairwise_append]
          refine ⟨hpw1, by simp, ?_⟩
          intro a ha b hb
          rcases List.mem_singleton.mp hb with rfl
          rw [hjlab]
          exact ((hnd1 a ha).mono_left hjsub).symm
        · intro a ha b hb
          rcases List.mem_singleton.mp hb with rfl
          rw [hklab]
          rcases List.mem_append.mp ha with ha' | ha'
          · exact ((hnd1 a ha').mono_left hksub).symm
          · rcases List.mem_singleton.mp ha' with rfl
            rw [hjlab]
            exact hdisj
      · ext x
        rw [mem_foldr_union]
        have hx0 : x ∈ Finset.range L ↔
            ∃ y ∈ nd :: heap1, x ∈ leavesOf nodes L y.label := by
          rw [← hcov, foldr_union_perm _ hperm, mem_foldr_union]
        rw [hx0]
        constructor
        · rintro ⟨y, hy, hx⟩
          rcases List.mem_append.mp hy with hy' | hy'
          · rcases List.mem_append.mp hy' with hy'' | hy''
            · exact ⟨y, List.mem_cons_of_mem _ hy'', hx⟩
            · rcases List.mem_singleton.mp hy'' with rfl
              rw [hjlab] at hx
              exact ⟨nd, List.mem_cons_self _ _, hmerge ▸ Finset.mem_union_left _ hx⟩
          · rcases List.mem_singleton.mp hy' with rfl
            rw [hklab] at hx
            exact ⟨nd, List.mem_cons_self _ _, hmerge ▸ Finset.mem_union_right _ hx⟩
        · rintro ⟨y, hy, hx⟩
          rcases List.mem_cons.mp hy with rfl | hy'
          · rw [hmerge] at hx
            rcases Finset.mem_union.mp hx with hx' | hx'
            · refine ⟨nodes.getD j default, ?_, by rw [hjlab]; exact hx'⟩
              exact List.mem_append.mpr (Or.inl
                (List.mem_append.mpr (Or.inr (List.mem_singleton.mpr rfl))))
            · refine ⟨nodes.getD k default, ?_, by rw [hklab]; exact hx'⟩
              exact List.mem_append.mpr (Or.inr (List.mem_singleton.mpr rfl))
          · refine ⟨y, ?_, hx⟩
            exact List.mem_append.mpr (Or.inl (List.mem_append.mpr (Or.inl hy')))
      · have hl : heap.length = heap1.length + 1 := by
          have := hperm.length_eq; simpa using this
        simp only [List.length_append, List.length_singleton]
        omega
      · have hl : heap.length = heap1.length + 1 := by
          have := hperm.length_eq; simpa using this
        simp only [List.length_append, List.length_singleton]
        omega
      · have hl : heap.length = heap1.length + 1 := by
          have := hperm.length_eq; simpa using this
        simp only [List.length_append, List.length_singleton]
        omega

theorem partition_spec_of_wf (nodes : List Node) (L n : ℕ)
    (hwf : DendroWF nodes L)
    (hpos : ∀ i, L ≤ i → i < nodes.length →
      0 < (nodes.getD i default).distance)
    (h1 : 1 ≤ n) (hn : n ≤ L) :
    (Dendrogram.partition nodes n).length = n ∧
    List.Pairwise (fun a b =>
      Disjoint (leavesOf nodes L a.label) (leavesOf nodes L b.label))
      (Dendrogram.partition nodes n) ∧
    (Dendrogram.partition nodes n).foldr
      (fun nd acc => leavesOf nodes L nd.label ∪ acc) ∅ =
      Finset.range L := by
  have hL1 := hwf.1
  have hlen2 := hwf.2.1
  have hidx : nodes.length - 1 < nodes.length := by omega
  have hlast : nodes.getLast? = some (nodes.getD (nodes.length - 1) default) := by
    rw [List.getLast?_eq_getElem?, List.getElem?_eq_getElem hidx,
      List.getD_eq_getElem nodes default hidx]
  have hlab := label_getD nodes L (nodes.length - 1) hwf hidx
  have hpart : Dendrogram.partition nodes n =
      partLoop nodes n (n + 1) [nodes.getD (nodes.length - 1) default] [] := by
    simp only [Dendrogram.partition, hlast]
  rw [hpart]
  apply partLoop_spec nodes L n hwf hpos h1 hn
  · intro nd hnd
    rcases List.mem_singleton.mp hnd with rfl
    refine ⟨?_, ?_⟩
    · rw [hlab]; exact hidx
    · rw [hlab]
  · exact List.pairwise_singleton _ _
  · simp only [List.foldr_cons, List.foldr_nil, Finset.union_empty]
    rw [hlab]
    exact hwf.2.2.2.2
  · simp
  · simpa using h1
  · simp only [List.length_singleton]
    omega

/-- Claim C4 amended: for a well-formed dendrogram over `L` leaves whose
merge nodes all carry a positive distance, and for a requested group count
`n` with `1 ≤ n ≤ L` (so `min n L = n`), `Dendrogram.partition` returns
exactly `n` groups whose transitive leaf memberships are pairwise disjoint
and together cover every leaf — every leaf lies in exactly one group. (For
`n > L` the original claim fails: the loop pushes a popped leaf node twice,
duplicating leaves, as the counterexample shows.) -/
theorem dendrogram_partition_partitions (nodes : List Node) (L n : ℕ)
    (hwf : DendroWF nodes L)
    (hpos : ∀ i, L ≤ i → i < nodes.length →
      0 < (nodes.getD i default).distance)
    (h1 : 1 ≤ n) (hn : n ≤ L) :
    (Dendrogram.partition nodes n).length = n ∧
    List.Pairwise (fun a b =>
      Disjoint (leavesOf nodes L a.label) (leavesOf nodes L b.label))
      (Dendrogram.partition nodes n) ∧
    (Dendrogram.partition nodes n).foldr
      (fun nd acc => leavesOf nodes L nd.label ∪ acc) ∅ =
      Finset.range L :=
  partition_spec_of_wf nodes L n hwf hpos h1 hn

theorem dendroWF_pairLike (d : ℝ) :
    DendroWF [⟨0, none, none, 0⟩, ⟨1, none, none, 0⟩, ⟨2, some 0, some 1, d⟩]
      2 := by
  refine ⟨by omega, by simp, ?_, ?_, ?_⟩
  · intro i hi
    interval_cases i <;> rfl
  · intro i h2 h3
    simp only [List.length_cons, List.length_nil] at h3
    interval_cases i
    refine ⟨rfl, 0, 1, rfl, rfl, by omega, by omega, ?_⟩
    rw [leavesOf_leaf _ 2 0 (by omega), leavesOf_leaf _ 2 1 (by omega)]
    decide
  · have hroot : leavesOf
        [⟨0, none, none, 0⟩, ⟨1, none, none, 0⟩,
          (⟨2, some 0, some 1, d⟩ : Node)] 2 2 =
        leavesOfD [⟨0, none, none, 0⟩, ⟨1, none, none, 0⟩,
          (⟨2, some 0, some 1, d⟩ : Node)] 2 2 0 ∪
        leavesOfD [⟨0, none, none, 0⟩, ⟨1, none, none, 0⟩,
          (⟨2, some 0, some 1, d⟩ : Node)] 2 2 1 := by
      simp only [leavesOf, leavesOfD]
      rfl
    have hd0 : leavesOfD [⟨0, none, none, 0⟩, ⟨1, none, none, 0⟩,
        (⟨2, some 0, some 1, d⟩ : Node)] 2 2 0 = {0} := by
      simp [leavesOfD]
    have hd1 : leavesOfD [⟨0, none, none, 0⟩, ⟨1, none, none, 0⟩,
        (⟨2, some 0, some 1, d⟩ : Node)] 2 2 1 = {1} := by
      simp [leavesOfD]
    show leavesOf _ 2 (3 - 1) = Finset.range 2
    rw [show (3 - 1 : ℕ) = 2 from rfl, hroot, hd0, hd1]
    decide

theorem dendroWF_pair : DendroWF pairDendrogram 2 := by
  unfold pairDendrogram
  exact dendroWF_pairLike 1

theorem dendrogram_partition_partitions_witness :
    (Dendrogram.partition pairDendrogram 2).length = 2 ∧
    List.Pairwise (fun a b =>
      Disjoint (leavesOf pairDendrogram 2 a.label)
        (leavesOf pairDendrogram 2 b.label))
      (Dendrogram.partition pairDendrogram 2) ∧
    (Dendrogram.partition pairDendrogram 2).foldr
      (fun nd acc => leavesOf pairDendrogram 2 nd.label ∪ acc) ∅ =
      Finset.range 2 := by
  apply dendrogram_partition_partitions pairDendrogram 2 2 dendroWF_pair
  · intro i h2 h3
    simp only [pairDendrogram, List.length_cons, List.length_nil] at h3
    interval_cases i
    norm_num [pairDendrogram]
  · omega
  · omega

/-! ## k-d tree search versus linear search (claim C6)

The build is evaluated one loop iteration at a time: the scans, the Hoare
partition, the quickselect and the node construction each get their own
step lemmas, because the recursions are guarded by real-number
comparisons. -/

theorem mkPt3_zero (a b c : ℝ) : mkPt3 a b c 0 = a := rfl

theorem mkPt3_one (a b c : ℝ) : mkPt3 a b c 1 = b := rfl

theorem mkPt3_two (a b c : ℝ) : mkPt3 a b c 2 = c := rfl

theorem scanLeft_step (vf : ℕ → ℝ) (s : List ℕ) (pv : ℝ) (left : ℕ)
    (h : left < s.length ∧ vf (s.getD left 0) < pv) :
    (scanLeft vf s pv left).1 = (scanLeft vf s pv (left + 1)).1 := by
  rw [scanLeft, dif_pos h]

theorem scanLeft_stop (vf : ℕ → ℝ) (s : List ℕ) (pv : ℝ) (left : ℕ)
    (h : ¬(left < s.length ∧ vf (s.getD left 0) < pv)) :
    (scanLeft vf s pv left).1 = left := by
  rw [scanLeft, dif_neg h]

theorem scanRight_step (vf : ℕ → ℝ) (s : List ℕ) (pv : ℝ) (right : ℤ)
    (h : 0 ≤ right ∧ vf (s.getD right.toNat 0) > pv) :
    (scanRight vf s pv right).1 = (scanRight vf s pv (right - 1)).1 := by
  rw [scanRight, dif_pos h]

theorem scanRight_stop (vf : ℕ → ℝ) (s : List ℕ) (pv : ℝ) (right : ℤ)
    (h : ¬(0 ≤ right ∧ vf (s.getD right.toNat 0) > pv)) :
    (scanRight vf s pv right).1 = right := by
  rw [scanRight, dif_neg h]

theorem hoareLoop_swap (vf : ℕ → ℝ) (pv : ℝ) (s : List ℕ) (left : ℕ)
    (right : ℤ) (hlr : (left : ℤ) ≤ right)
    (h2 : ((scanLeft vf s pv left).1 : ℤ) ≤ (scanRight vf s pv right).1) :
    hoareLoop vf pv s left right =
      hoareLoop vf pv
        (listSwap s (scanLeft vf s pv left).1 (scanRight vf s pv right).1.toNat)
        ((scanLeft vf s pv left).1 + 1) ((scanRight vf s pv right).1 - 1) := by
  rw [hoareLoop, dif_pos hlr]
  dsimp only
  rw [dif_pos h2]

theorem hoareLoop_done (vf : ℕ → ℝ) (pv : ℝ) (s : List ℕ) (left : ℕ)
    (right : ℤ) (hlr : (left : ℤ) ≤ right)
    (h2 : ¬(((scanLeft vf s pv left).1 : ℤ) ≤ (scanRight vf s pv right).1)) :
    hoareLoop vf pv s left right = (s, (scanLeft vf s pv left).1 - 1) := by
  rw [hoareLoop, dif_pos hlr]
  dsimp only
  rw [dif_neg h2]

theorem buildNode_nil (fuel d : ℕ) (pts : List Pt) (depth : ℕ) :
    buildNode fuel d pts [] depth = .nil := by
  cases fuel <;> simp [buildNode]

theorem c6vx_0 : c6vx 0 = 2 := rfl
theorem c6vx_1 : c6vx 1 = 0 := rfl
theorem c6vx_2 : c6vx 2 = 4 := rfl
theorem c6vx_3 : c6vx 3 = 7 := rfl
theorem c6vx_4 : c6vx 4 = 3 := rfl
theorem c6vx_5 : c6vx 5 = 3 := rfl
theorem c6vy_0 : c6vy 0 = 4 := rfl
theorem c6vy_1 : c6vy 1 = 7 := rfl
theorem c6vy_3 : c6vy 3 = 2 := rfl
theorem c6vy_4 : c6vy 4 = 2 := rfl
theorem c6vy_5 : c6vy 5 = 1 := rfl

theorem c6pts_length : c6pts.length = 6 := rfl

theorem c6vx_lam : (fun i => (c6pts.getD i zeroPt) 0) = c6vx := rfl

theorem c6vy_lam : (fun i => (c6pts.getD i zeroPt) 1) = c6vy := rfl

theorem c6vx_lam2 : (fun i => (c6pts[i]?.getD zeroPt) 0) = c6vx := by
  funext i
  simp [c6vx, List.getD]

theorem c6vy_lam2 : (fun i => (c6pts[i]?.getD zeroPt) 1) = c6vy := by
  funext i
  simp [c6vy, List.getD]

theorem c6sl1 : (scanLeft c6vx [0,1,2,3,4,5] 7 0).1 = 3 := by
  rw [scanLeft_step _ _ _ _ (by norm_num [c6vx_0])]
  rw [show (0 + 1 : ℕ) = 1 from rfl]
  rw [scanLeft_step _ _ _ _ (by norm_num [c6vx_1])]
  rw [show (1 + 1 : ℕ) = 2 from rfl]
  rw [scanLeft_step _ _ _ _ (by norm_num [c6vx_2])]
  rw [show (2 + 1 : ℕ) = 3 from rfl]
  rw [scanLeft_stop _ _ _ _ (by norm_num [c6vx_3])]

theorem c6sr1 : (scanRight c6vx [0,1,2,3,4,5] 7 5).1 = 5 := by
  rw [scanRight_stop _ _ _ _
    (by simp only [show ((5:ℤ).toNat) = 5 from rfl]; norm_num [c6vx_5])]

theorem c6sl2 : (scanLeft c6vx [0,1,2,5,4,3] 7 4).1 = 5 := by
  rw [scanLeft_step _ _ _ _ (by norm_num [c6vx_4])]
  rw [show (4 + 1 : ℕ) = 5 from rfl]
  rw [scanLeft_stop _ _ _ _ (by norm_num [c6vx_3])]

theorem c6sr2 : (scanRight c6vx [0,1,2,5,4,3] 7 4).1 = 4 := by
  rw [scanRight_stop _ _ _ _
    (by simp only [show ((4:ℤ).toNat) = 4 from rfl]; norm_num [c6vx_4])]

theorem c6hoareA : hoareLoop c6vx 7 [0,1,2,3,4,5] 0 5 = ([0,1,2,5,4,3], 4) := by
  rw [hoareLoop_swap _ _ _ _ _ (by norm_num) (by rw [c6sl1, c6sr1]; norm_num)]
  rw [c6sl1, c6sr1]
  simp only [show ((5:ℤ).toNat) = 5 from rfl]
  norm_num [listSwap]
  rw [hoareLoop_done _ _ _ _ _ (by norm_num) (by rw [c6sl2, c6sr2]; norm_num)]
  rw [c6sl2]

theorem c6slB : (scanLeft c6vx [0,1,2,5] 4 0).1 = 2 := by
  rw [scanLeft_step _ _ _ _ (by norm_num [c6vx_0])]
  rw [show (0 + 1 : ℕ) = 1 from rfl]
  rw [scanLeft_step _ _ _ _ (by norm_num [c6vx_1])]
  rw [show (1 + 1 : ℕ) = 2 from rfl]
  rw [scanLeft_stop _ _ _ _ (by norm_num [c6vx_2])]

theorem c6srB : (scanRight c6vx [0,1,2,5] 4 3).1 = 3 := by
  rw [scanRight_stop _ _ _ _
    (by simp only [show ((3:ℤ).toNat) = 3 from rfl]; norm_num [c6vx_5])]

theorem c6hoareB : hoareLoop c6vx 4 [0,1,2,5] 0 3 = ([0,1,5,2], 2) := by
  rw [hoareLoop_swap _ _ _ _ _ (by norm_num) (by rw [c6slB, c6srB]; norm_num)]
  rw [c6slB, c6srB]
  simp only [show ((3:ℤ).toNat) = 3 from rfl]
  norm_num [listSwap]
  rw [hoareLoop, dif_neg (by norm_num)]

theorem c6slC : (scanLeft c6vy [0,1,5] 7 0).1 = 1 := by
  rw [scanLeft_step _ _ _ _ (by norm_num [c6vy_0])]
  rw [show (0 + 1 : ℕ) = 1 from rfl]
  rw [scanLeft_stop _ _ _ _ (by norm_num [c6vy_1])]

theorem c6srC : (scanRight c6vy [0,1,5] 7 2).1 = 2 := by
  rw [scanRight_stop _ _ _ _
    (by simp only [show ((2:ℤ).toNat) = 2 from rfl]; norm_num [c6vy_5])]

theorem c6hoareC : hoareLoop c6vy 7 [0,1,5] 0 2 = ([0,5,1], 1) := by
  rw [hoareLoop_swap _ _ _ _ _ (by norm_num) (by rw [c6slC, c6srC]; norm_num)]
  rw [c6slC, c6srC]
  simp only [show ((2:ℤ).toNat) = 2 from rfl]
  norm_num [listSwap]
  rw [hoareLoop, dif_neg (by norm_num)]

theorem c6slD : (scanLeft c6vy [4,3] 2 0).1 = 0 := by
  rw [scanLeft_stop _ _ _ _ (by norm_num [c6vy_4])]

theorem c6srD : (scanRight c6vy [4,3] 2 1).1 = 1 := by
  rw [scanRight_stop _ _ _ _
    (by simp only [show ((1:ℤ).toNat) = 1 from rfl]; norm_num [c6vy_3])]

theorem c6hoareD : hoareLoop c6vy 2 [4,3] 0 1 = ([3,4], 0) := by
  rw [hoareLoop_swap _ _ _ _ _ (by norm_num) (by rw [c6slD, c6srD]; norm_num)]
  rw [c6slD, c6srD]
  simp only [show ((1:ℤ).toNat) = 1 from rfl]
  norm_num [listSwap]
  rw [hoareLoop, dif_neg (by norm_num)]

theorem c6partA : partitionByKey c6vx [0,1,2,3,4,5] = ([0,1,2,5,4,3], 4) := by
  rw [partitionByKey]
  norm_num [c6vx_3]
  exact c6hoareA

theorem c6partB : partitionByKey c6vx [0,1,2,5] = ([0,1,5,2], 2) := by
  rw [partitionByKey]
  norm_num [c6vx_2]
  exact c6hoareB

theorem c6partC : partitionByKey c6vy [0,1,5] = ([0,5,1], 1) := by
  rw [partitionByKey]
  norm_num [c6vy_1]
  exact c6hoareC

theorem c6partD : partitionByKey c6vy [4,3] = ([3,4], 0) := by
  rw [partitionByKey]
  norm_num [c6vy_3]
  exact c6hoareD

theorem c6find1 : findNthIndex 6 c6vx [0,1,2,3,4,5] 3 = ([0,1,5,2,4,3], 3) := by
  norm_num [findNthIndex, c6partA, c6partB]

theorem c6find4 : findNthIndex 3 c6vy [0,1,5] 1 = ([0,5,1], 1) := by
  norm_num [findNthIndex, c6partC]

theorem c6find7 : findNthIndex 2 c6vy [4,3] 1 = ([3,4], 1) := by
  norm_num [findNthIndex, c6partD]

theorem c6findS1 : findNthIndex 1 c6vx [0] 0 = ([0], 0) := by
  norm_num [findNthIndex]

theorem c6findS2 : findNthIndex 1 c6vx [1] 0 = ([1], 0) := by
  norm_num [findNthIndex]

theorem c6findS3 : findNthIndex 1 c6vx [3] 0 = ([3], 0) := by
  norm_num [findNthIndex]

theorem c6build2a : buildNode 5 2 c6pts [0] 2 = .node 0 0 .nil .nil := by
  rw [show (5 : ℕ) = 4 + 1 from rfl, buildNode]
  norm_num [c6vx_lam, c6vx_lam2]
  rw [c6findS1]
  norm_num [buildNode_nil]

theorem c6build2b : buildNode 5 2 c6pts [1] 2 = .node 1 0 .nil .nil := by
  rw [show (5 : ℕ) = 4 + 1 from rfl, buildNode]
  norm_num [c6vx_lam, c6vx_lam2]
  rw [c6findS2]
  norm_num [buildNode_nil]

theorem c6build2c : buildNode 5 2 c6pts [3] 2 = .node 3 0 .nil .nil := by
  rw [show (5 : ℕ) = 4 + 1 from rfl, buildNode]
  norm_num [c6vx_lam, c6vx_lam2]
  rw [c6findS3]
  norm_num [buildNode_nil]

theorem c6build1a : buildNode 6 2 c6pts [0,1,5] 1 =
    .node 5 1 (.node 0 0 .nil .nil) (.node 1 0 .nil .nil) := by
  rw [show (6 : ℕ) = 5 + 1 from rfl, buildNode]
  norm_num [c6vy_lam, c6vy_lam2]
  rw [c6find4]
  norm_num [c6build2a, c6build2b]

theorem c6build1b : buildNode 6 2 c6pts [4,3] 1 =
    .node 4 1 (.node 3 0 .nil .nil) .nil := by
  rw [show (6 : ℕ) = 5 + 1 from rfl, buildNode]
  norm_num [c6vy_lam, c6vy_lam2]
  rw [c6find7]
  norm_num [c6build2c, buildNode_nil]

theorem c6build0 : buildNode 7 2 c6pts [0,1,2,3,4,5] 0 =
    KDT.node 2 0
      (KDT.node 5 1 (KDT.node 0 0 .nil .nil) (KDT.node 1 0 .nil .nil))
      (KDT.node 4 1 (KDT.node 3 0 .nil .nil) .nil) := by
  rw [show (7 : ℕ) = 6 + 1 from rfl, buildNode]
  norm_num [c6vx_lam, c6vx_lam2]
  rw [c6find1]
  norm_num [c6build1a, c6build1b]

theorem kdBuild_c6 : kdBuild 2 c6pts =
    KDT.node 2 0
      (KDT.node 5 1 (KDT.node 0 0 .nil .nil) (KDT.node 1 0 .nil .nil))
      (KDT.node 4 1 (KDT.node 3 0 .nil .nil) .nil) := by
  rw [kdBuild, c6pts_length]
  norm_num [List.range_succ]
  exact c6build0

theorem c6q0 : c6query 0 = 3 := rfl
theorem c6q1 : c6query 1 = 4 := rfl
theorem c6get0 : c6pts.getD 0 zeroPt = mkPt3 2 4 0 := rfl
theorem c6get1 : c6pts.getD 1 zeroPt = mkPt3 0 7 0 := rfl
theorem c6get2 : c6pts.getD 2 zeroPt = mkPt3 4 5 0 := rfl
theorem c6get3 : c6pts.getD 3 zeroPt = mkPt3 7 2 0 := rfl
theorem c6get4 : c6pts.getD 4 zeroPt = mkPt3 3 2 0 := rfl
theorem c6get5 : c6pts.getD 5 zeroPt = mkPt3 3 1 0 := rfl
theorem c6getE0 : c6pts[(0:ℕ)]?.getD zeroPt = mkPt3 2 4 0 := rfl
theorem c6getE1 : c6pts[(1:ℕ)]?.getD zeroPt = mkPt3 0 7 0 := rfl
theorem c6getE2 : c6pts[(2:ℕ)]?.getD zeroPt = mkPt3 4 5 0 := rfl
theorem c6getE3 : c6pts[(3:ℕ)]?.getD zeroPt = mkPt3 7 2 0 := rfl
theorem c6getE4 : c6pts[(4:ℕ)]?.getD zeroPt = mkPt3 3 2 0 := rfl
theorem c6getE5 : c6pts[(5:ℕ)]?.getD zeroPt = mkPt3 3 1 0 := rfl

theorem c6measure (a b : ℝ) :
    DistanceMetric.measure .squaredEuclidean 2 (mkPt3 a b 0) c6query =
      (a - 3) ^ (2 : ℕ) + (b - 4) ^ (2 : ℕ) := by
  rw [DistanceMetric.measure]
  rw [squaredEuclidean]
  rw [Finset.sum_range_succ, Finset.sum_range_succ, Finset.sum_range_zero]
  norm_num [c6q0, c6q1, mkPt3_zero, mkPt3_one]

set_option maxRecDepth 8000 in
theorem kdSearch_c6 :
    kdSearch c6pts (DistanceMetric.measure .squaredEuclidean 2)
      (kdBuild 2 c6pts) c6query 1 = [⟨2, 2⟩] := by
  rw [kdBuild_c6, kdSearch]
  norm_num [kdSearchRec, KDT.isLeaf, boundedInsert, sortNeighbors,
    insertNeighbor, c6get0, c6get1, c6get2, c6get3, c6get4, c6get5,
    c6getE0, c6getE1, c6getE2, c6getE3, c6getE4, c6getE5, c6measure,
    c6q0, c6q1, mkPt3_zero, mkPt3_one]

set_option maxRecDepth 8000 in
theorem linearSearch_c6 :
    linearSearch (DistanceMetric.measure .squaredEuclidean 2) c6pts c6query 1 =
      [⟨0, 1⟩] := by
  rw [linearSearch]
  norm_num [c6pts, List.enum, List.enumFrom, sortNeighbors, insertNeighbor,
    c6measure]

/-- Claim C6 (refuted — code bug): on the six-point planar set `c6pts`,
whose six distances to the query are pairwise distinct, the k-d tree search
with the squared-Euclidean metric and `k = 1` returns neighbor 2 at
distance 2 while the brute-force linear search returns the true nearest
neighbor 0 at distance 1.  The root cause is that `find_nth_index` returns
a slice position whose element need not equal the order statistic, so the
tree violates the axis invariant and the search prunes away the subtree
holding the true nearest neighbor. -/
theorem kd_search_diverges_from_linear :
    kdSearch c6pts (DistanceMetric.measure .squaredEuclidean 2)
        (kdBuild 2 c6pts) c6query 1 = [⟨2, 2⟩] ∧
    linearSearch (DistanceMetric.measure .squaredEuclidean 2) c6pts
        c6query 1 = [⟨0, 1⟩] ∧
    kdSearch c6pts (DistanceMetric.measure .squaredEuclidean 2)
        (kdBuild 2 c6pts) c6query 1 ≠
      linearSearch (DistanceMetric.measure .squaredEuclidean 2) c6pts
        c6query 1 := by
  refine ⟨kdSearch_c6, linearSearch_c6, ?_⟩
  rw [kdSearch_c6, linearSearch_c6]
  simp

/-! ## DBSCAN radius search losing points (claim C9) -/

theorem c9vx_0 : c9vx 0 = 1 / 8 := rfl
theorem c9vx_1 : c9vx 1 = 1 / 8 := rfl
theorem c9vx_2 : c9vx 2 = 1 / 4 := rfl
theorem c9vx_3 : c9vx 3 = 0 := rfl
theorem c9vy_0 : c9vy 0 = 0 := rfl
theorem c9vy_1 : c9vy 1 = 1 / 8 := rfl

theorem c9pts_length : c9pts.length = 4 := rfl

theorem c9vx_lam : (fun i => (c9pts.getD i zeroPt) 0) = c9vx := rfl

theorem c9vy_lam : (fun i => (c9pts.getD i zeroPt) 1) = c9vy := rfl

theorem c9vx_lam2 : (fun i => (c9pts[i]?.getD zeroPt) 0) = c9vx := by
  funext i
  simp [c9vx, List.getD]

theorem c9vy_lam2 : (fun i => (c9pts[i]?.getD zeroPt) 1) = c9vy := by
  funext i
  simp [c9vy, List.getD]

theorem c9slA : (scanLeft c9vx [0,1,2,3] (1/4) 0).1 = 2 := by
  rw [scanLeft_step _ _ _ _ (by norm_num [c9vx_0])]
  rw [show (0 + 1 : ℕ) = 1 from rfl]
  rw [scanLeft_step _ _ _ _ (by norm_num [c9vx_1])]
  rw [show (1 + 1 : ℕ) = 2 from rfl]
  rw [scanLeft_stop _ _ _ _ (by norm_num [c9vx_2])]

theorem c9srA : (scanRight c9vx [0,1,2,3] (1/4) 3).1 = 3 := by
  rw [scanRight_stop _ _ _ _
    (by simp only [show ((3:ℤ).toNat) = 3 from rfl]; norm_num [c9vx_3])]

theorem c9hoareA : hoareLoop c9vx (1/4) [0,1,2,3] 0 3 = ([0,1,3,2], 2) := by
  rw [hoareLoop_swap _ _ _ _ _ (by norm_num) (by rw [c9slA, c9srA]; norm_num)]
  rw [c9slA, c9srA]
  simp only [show ((3:ℤ).toNat) = 3 from rfl]
  norm_num [listSwap]
  rw [hoareLoop, dif_neg (by norm_num)]

theorem c9slB : (scanLeft c9vy [0,1] (1/8) 0).1 = 1 := by
  rw [scanLeft_step _ _ _ _ (by norm_num [c9vy_0])]
  rw [show (0 + 1 : ℕ) = 1 from rfl]
  rw [scanLeft_stop _ _ _ _ (by norm_num [c9vy_1])]

theorem c9srB : (scanRight c9vy [0,1] (1/8) 1).1 = 1 := by
  rw [scanRight_stop _ _ _ _
    (by simp only [show ((1:ℤ).toNat) = 1 from rfl]; norm_num [c9vy_1])]

theorem c9hoareB : hoareLoop c9vy (1/8) [0,1] 0 1 = ([0,1], 1) := by
  rw [hoareLoop_swap _ _ _ _ _ (by norm_num) (by rw [c9slB, c9srB]; norm_num)]
  rw [c9slB, c9srB]
  simp only [show ((1:ℤ).toNat) = 1 from rfl]
  norm_num [listSwap]
  rw [hoareLoop, dif_neg (by norm_num)]

theorem c9partA : partitionByKey c9vx [0,1,2,3] = ([0,1,3,2], 2) := by
  rw [partitionByKey]
  norm_num [c9vx_2]
  exact c9hoareA

theorem c9partB : partitionByKey c9vy [0,1] = ([0,1], 1) := by
  rw [partitionByKey]
  norm_num [c9vy_1]
  exact c9hoareB

theorem c9findA : findNthIndex 4 c9vx [0,1,2,3] 2 = ([0,1,3,2], 2) := by
  norm_num [findNthIndex, c9partA]

theorem c9findB : findNthIndex 2 c9vy [0,1] 1 = ([0,1], 1) := by
  norm_num [findNthIndex, c9partB]

theorem c9findS0 : findNthIndex 1 c9vx [0] 0 = ([0], 0) := by
  norm_num [findNthIndex]

theorem c9findS2 : findNthIndex 1 c9vy [2] 0 = ([2], 0) := by
  norm_num [findNthIndex]

theorem c9build2a : buildNode 3 2 c9pts [0] 2 = .node 0 0 .nil .nil := by
  rw [show (3 : ℕ) = 2 + 1 from rfl, buildNode]
  norm_num [c9vx_lam, c9vx_lam2]
  rw [c9findS0]
  norm_num [buildNode_nil]

theorem c9build1a : buildNode 4 2 c9pts [0,1] 1 =
    .node 1 1 (.node 0 0 .nil .nil) .nil := by
  rw [show (4 : ℕ) = 3 + 1 from rfl, buildNode]
  norm_num [c9vy_lam, c9vy_lam2]
  rw [c9findB]
  norm_num [c9build2a, buildNode_nil]

theorem c9build1b : buildNode 4 2 c9pts [2] 1 = .node 2 1 .nil .nil := by
  rw [show (4 : ℕ) = 3 + 1 from rfl, buildNode]
  norm_num [c9vy_lam, c9vy_lam2]
  rw [c9findS2]
  norm_num [buildNode_nil]

theorem c9build0 : buildNode 5 2 c9pts [0,1,2,3] 0 =
    KDT.node 3 0 (.node 1 1 (.node 0 0 .nil .nil) .nil)
      (.node 2 1 .nil .nil) := by
  rw [show (5 : ℕ) = 4 + 1 from rfl, buildNode]
  norm_num [c9vx_lam, c9vx_lam2]
  rw [c9findA]
  norm_num [c9build1a, c9build1b]

theorem kdBuild_c9 : kdBuild 2 c9pts =
    KDT.node 3 0 (.node 1 1 (.node 0 0 .nil .nil) .nil)
      (.node 2 1 .nil .nil) := by
  rw [kdBuild, c9pts_length]
  norm_num [List.range_succ]
  exact c9build0

theorem c9get0 : c9pts.getD 0 zeroPt = mkPt3 (1/8) 0 0 := rfl
theorem c9get1 : c9pts.getD 1 zeroPt = mkPt3 (1/8) (1/8) 0 := rfl
theorem c9get2 : c9pts.getD 2 zeroPt = mkPt3 (1/4) (1/8) 0 := rfl
theorem c9get3 : c9pts.getD 3 zeroPt = mkPt3 0 (1/4) 0 := rfl
theorem c9getE0 : c9pts[(0:ℕ)]?.getD zeroPt = mkPt3 (1/8) 0 0 := rfl
theorem c9getE1 : c9pts[(1:ℕ)]?.getD zeroPt = mkPt3 (1/8) (1/8) 0 := rfl
theorem c9getE2 : c9pts[(2:ℕ)]?.getD zeroPt = mkPt3 (1/4) (1/8) 0 := rfl
theorem c9getE3 : c9pts[(3:ℕ)]?.getD zeroPt = mkPt3 0 (1/4) 0 := rfl

theorem c9measure (a b c d : ℝ) :
    DistanceMetric.measure .squaredEuclidean 2 (mkPt3 a b 0) (mkPt3 c d 0) =
      (a - c) ^ (2 : ℕ) + (b - d) ^ (2 : ℕ) := by
  rw [DistanceMetric.measure]
  rw [squaredEuclidean]
  rw [Finset.sum_range_succ, Finset.sum_range_succ, Finset.sum_range_zero]
  norm_num [mkPt3_zero, mkPt3_one]

theorem c9rad0 :
    kdSearchRadius c9pts (DistanceMetric.measure .squaredEuclidean 2)
      (KDT.node 3 0 (.node 1 1 (.node 0 0 .nil .nil) .nil)
        (.node 2 1 .nil .nil)) (mkPt3 (1/8) 0 0) (5/64) =
      [⟨3, 5/64⟩, ⟨2, 1/32⟩] := by
  rw [kdSearchRadius]
  norm_num [kdSearchRadiusRec, c9get0, c9get1, c9get2, c9get3, c9getE0,
    c9getE1, c9getE2, c9getE3, c9measure, mkPt3_zero, mkPt3_one,
    abs_of_nonneg, abs_of_nonpos]

theorem c9rad1 :
    kdSearchRadius c9pts (DistanceMetric.measure .squaredEuclidean 2)
      (KDT.node 3 0 (.node 1 1 (.node 0 0 .nil .nil) .nil)
        (.node 2 1 .nil .nil)) (mkPt3 (1/8) (1/8) 0) (5/64) =
      [⟨3, 1/32⟩, ⟨2, 1/64⟩] := by
  rw [kdSearchRadius]
  norm_num [kdSearchRadiusRec, c9get0, c9get1, c9get2, c9get3, c9getE0,
    c9getE1, c9getE2, c9getE3, c9measure, mkPt3_zero, mkPt3_one,
    abs_of_nonneg, abs_of_nonpos]

theorem c9rad2 :
    kdSearchRadius c9pts (DistanceMetric.measure .squaredEuclidean 2)
      (KDT.node 3 0 (.node 1 1 (.node 0 0 .nil .nil) .nil)
        (.node 2 1 .nil .nil)) (mkPt3 (1/4) (1/8) 0) (5/64) =
      [⟨3, 5/64⟩, ⟨2, 0⟩] := by
  rw [kdSearchRadius]
  norm_num [kdSearchRadiusRec, c9get0, c9get1, c9get2, c9get3, c9getE0,
    c9getE1, c9getE2, c9getE3, c9measure, mkPt3_zero, mkPt3_one,
    abs_of_nonneg, abs_of_nonpos]

theorem c9rad3 :
    kdSearchRadius c9pts (DistanceMetric.measure .squaredEuclidean 2)
      (KDT.node 3 0 (.node 1 1 (.node 0 0 .nil .nil) .nil)
        (.node 2 1 .nil .nil)) (mkPt3 0 (1/4) 0) (5/64) =
      [⟨3, 0⟩, ⟨1, 1/32⟩, ⟨2, 5/64⟩] := by
  rw [kdSearchRadius]
  norm_num [kdSearchRadiusRec, c9get0, c9get1, c9get2, c9get3, c9getE0,
    c9getE1, c9getE2, c9getE3, c9measure, mkPt3_zero, mkPt3_one,
    abs_of_nonneg, abs_of_nonpos]

theorem clusterOfId_membership (pts : List Pt) (labels : List Label) (cid : ℕ) :
    (clusterOfId pts labels cid).membership =
      (List.range pts.length).filter fun i =>
        decide (labels.getD i .undefined = .assigned cid) := by
  rw [clusterOfId, cluster_insertAll_membership]
  simp only [List.nil_append, List.map_map]
  have h : (Prod.fst ∘ fun i : ℕ => (i, pts.getD i zeroPt)) = id := by
    funext i; rfl
  rw [h, List.map_id]

theorem c9radD0 :
    kdSearchRadius c9pts (DistanceMetric.measure .squaredEuclidean 2)
      (KDT.node 3 0 (.node 1 1 (.node 0 0 .nil .nil) .nil)
        (.node 2 1 .nil .nil)) (c9pts.getD 0 zeroPt) (5/64) =
      [⟨3, 5/64⟩, ⟨2, 1/32⟩] := by
  rw [c9get0]; exact c9rad0

theorem c9radD1 :
    kdSearchRadius c9pts (DistanceMetric.measure .squaredEuclidean 2)
      (KDT.node 3 0 (.node 1 1 (.node 0 0 .nil .nil) .nil)
        (.node 2 1 .nil .nil)) (c9pts.getD 1 zeroPt) (5/64) =
      [⟨3, 1/32⟩, ⟨2, 1/64⟩] := by
  rw [c9get1]; exact c9rad1

theorem c9radD2 :
    kdSearchRadius c9pts (DistanceMetric.measure .squaredEuclidean 2)
      (KDT.node 3 0 (.node 1 1 (.node 0 0 .nil .nil) .nil)
        (.node 2 1 .nil .nil)) (c9pts.getD 2 zeroPt) (5/64) =
      [⟨3, 5/64⟩, ⟨2, 0⟩] := by
  rw [c9get2]; exact c9rad2

theorem c9radD3 :
    kdSearchRadius c9pts (DistanceMetric.measure .squaredEuclidean 2)
      (KDT.node 3 0 (.node 1 1 (.node 0 0 .nil .nil) .nil)
        (.node 2 1 .nil .nil)) (c9pts.getD 3 zeroPt) (5/64) =
      [⟨3, 0⟩, ⟨1, 1/32⟩, ⟨2, 5/64⟩] := by
  rw [c9get3]; exact c9rad3

theorem c9radE0 :
    kdSearchRadius c9pts (DistanceMetric.measure .squaredEuclidean 2)
      (KDT.node 3 0 (.node 1 1 (.node 0 0 .nil .nil) .nil)
        (.node 2 1 .nil .nil)) (c9pts[(0:ℕ)]?.getD zeroPt) (5/64) =
      [⟨3, 5/64⟩, ⟨2, 1/32⟩] := by
  rw [c9getE0]; exact c9rad0

theorem c9radE1 :
    kdSearchRadius c9pts (DistanceMetric.measure .squaredEuclidean 2)
      (KDT.node 3 0 (.node 1 1 (.node 0 0 .nil .nil) .nil)
        (.node 2 1 .nil .nil)) (c9pts[(1:ℕ)]?.getD zeroPt) (5/64) =
      [⟨3, 1/32⟩, ⟨2, 1/64⟩] := by
  rw [c9getE1]; exact c9rad1

theorem c9radE2 :
    kdSearchRadius c9pts (DistanceMetric.measure .squaredEuclidean 2)
      (KDT.node 3 0 (.node 1 1 (.node 0 0 .nil .nil) .nil)
        (.node 2 1 .nil .nil)) (c9pts[(2:ℕ)]?.getD zeroPt) (5/64) =
      [⟨3, 5/64⟩, ⟨2, 0⟩] := by
  rw [c9getE2]; exact c9rad2

theorem c9radE3 :
    kdSearchRadius c9pts (DistanceMetric.measure .squaredEuclidean 2)
      (KDT.node 3 0 (.node 1 1 (.node 0 0 .nil .nil) .nil)
        (.node 2 1 .nil .nil)) (c9pts[(3:ℕ)]?.getD zeroPt) (5/64) =
      [⟨3, 0⟩, ⟨1, 1/32⟩, ⟨2, 5/64⟩] := by
  rw [c9getE3]; exact c9rad3

set_option maxRecDepth 8000 in
theorem dbscan_c9_main :
    dbscanMainLoop 2 c9pts (DistanceMetric.measure .squaredEuclidean 2)
      (5/64) 1
      (KDT.node 3 0 (.node 1 1 (.node 0 0 .nil .nil) .nil)
        (.node 2 1 .nil .nil))
      [0, 1, 2, 3]
      ([.undefined, .undefined, .undefined, .undefined], 0) =
      ([.undefined, .assigned 0, .assigned 0, .assigned 0], 1) := by
  rw [dbscanMainLoop]
  rw [if_neg (by decide)]
  dsimp only
  rw [c9radD0]
  rw [if_neg (by norm_num)]
  rw [expandCluster, c9pts_length]
  norm_num [dbscanQueueStep, Label.isAssigned, Label.isOutlier,
    Label.isUndefined]
  rw [show (30 : ℕ) = 29 + 1 from rfl]
  rw [expandLoop]
  rw [c9radD3]
  norm_num [dbscanQueueStep, Label.isAssigned, Label.isOutlier,
    Label.isUndefined]
  rw [show (29 : ℕ) = 28 + 1 from rfl]
  rw [expandLoop]
  rw [c9radD2]
  norm_num [dbscanQueueStep, Label.isAssigned, Label.isOutlier,
    Label.isUndefined]
  rw [show (28 : ℕ) = 27 + 1 from rfl]
  rw [expandLoop]
  rw [c9radD1]
  norm_num [dbscanQueueStep, Label.isAssigned, Label.isOutlier,
    Label.isUndefined]
  rw [show (27 : ℕ) = 26 + 1 from rfl]
  rw [expandLoop]
  rw [dbscanMainLoop]
  rw [if_pos (by decide)]
  rw [dbscanMainLoop]
  rw [if_pos (by decide)]
  rw [dbscanMainLoop]
  rw [if_pos (by decide)]
  rw [dbscanMainLoop]

set_option maxRecDepth 8000 in
theorem dbscan_c9_eval :
    ((dbscanFit 2 (DistanceMetric.measure .squaredEuclidean 2) 1 (5/64)
        c9pts).1).map Cluster.membership = [[1, 2, 3]] ∧
    (dbscanFit 2 (DistanceMetric.measure .squaredEuclidean 2) 1 (5/64)
        c9pts).2 = [] := by
  have h1 : c9pts.isEmpty = false := rfl
  have hm := dbscan_c9_main
  constructor
  all_goals
    simp only [dbscanFit, h1, Bool.false_eq_true, if_false]
    rw [kdBuild_c9, c9pts_length]
    norm_num [List.replicate, List.range_succ]
    rw [hm]
    norm_num [List.range_succ, clusterOfId_membership, Cluster.isEmpty,
      c9pts_length]
    decide

/-- Claim C9 (refuted — code bug): on the non-empty 4-point set `c9pts`,
with `min_samples = 1` and an epsilon (5/64) at least as large as every
pairwise squared-Euclidean distance, DBSCAN returns a single cluster whose
membership is `[1, 2, 3]` and an empty outlier set: index 0 is in no
cluster and is not an outlier.  The cause is the radius search of the k-d
tree, which prunes with the raw coordinate difference `|delta| <= eps`
while the metric is the squared distance, so point 0's own neighborhood
misses point 0 itself; the point is marked while expanding the cluster and
the main loop then skips it forever. -/
theorem dbscan_loses_point :
    (¬ c9pts.isEmpty = true) ∧
    (∀ p ∈ c9pts, ∀ q ∈ c9pts,
        DistanceMetric.measure .squaredEuclidean 2 p q ≤ 5 / 64) ∧
    ((dbscanFit 2 (DistanceMetric.measure .squaredEuclidean 2) 1 (5/64)
        c9pts).1).map Cluster.membership = [[1, 2, 3]] ∧
    (dbscanFit 2 (DistanceMetric.measure .squaredEuclidean 2) 1 (5/64)
        c9pts).2 = [] ∧
    ∀ c ∈ (dbscanFit 2 (DistanceMetric.measure .squaredEuclidean 2) 1
        (5/64) c9pts).1, 0 ∉ c.membership := by
  refine ⟨?_, ?_, dbscan_c9_eval.1, dbscan_c9_eval.2, ?_⟩
  · rw [show c9pts.isEmpty = false from rfl]
    simp
  · intro p hp q hq
    simp only [c9pts, List.mem_cons, List.not_mem_nil, or_false] at hp hq
    rcases hp with rfl | rfl | rfl | rfl <;>
      rcases hq with rfl | rfl | rfl | rfl <;>
      rw [c9measure] <;> norm_num
  · intro c hc
    have h2 : c.membership ∈
        ((dbscanFit 2 (DistanceMetric.measure .squaredEuclidean 2) 1 (5/64)
          c9pts).1).map Cluster.membership := List.mem_map_of_mem _ hc
    rw [dbscan_c9_eval.1] at h2
    rw [List.mem_singleton.mp h2]
    decide


/-! ## Stage C metric (claim C2) -/

theorem hch0 : chromaOf 0 0 = 0 := by
  simp [chromaOf]

theorem hch22 : chromaOf 2.2 0 = 2.2 := by
  rw [chromaOf, show ((2.2:ℝ) ^ (2:ℕ) + (0:ℝ) ^ (2:ℕ)) = 2.2 ^ 2 from by norm_num]
  exact Real.sqrt_sq (by norm_num)

theorem gFactor_le_half : gFactor 1.1 ≤ 1 / 2 := by
  rw [gFactor, show (1/2 : ℝ) = Real.sqrt ((1/2)^2) from (Real.sqrt_sq (by norm_num)).symm]
  apply Real.sqrt_le_sqrt
  rw [div_le_iff₀ (by positivity)]
  norm_num

theorem gFactor_nonneg (x : ℝ) : 0 ≤ gFactor x := Real.sqrt_nonneg _

theorem chromaOf_of_nonneg (a : ℝ) (h : 0 ≤ a) : chromaOf a 0 = a := by
  rw [chromaOf, show (a ^ (2:ℕ) + (0:ℝ) ^ (2:ℕ)) = a ^ 2 from by norm_num]
  exact Real.sqrt_sq h

theorem hPrime_00 : hPrime 0 0 = 0 := by
  simp [hPrime]

theorem hPrime_x0 (x : ℝ) (hx : 0 < x) : hPrime x 0 = 0 := by
  rw [hPrime]
  rw [if_neg (by rintro ⟨h, -⟩; exact absurd h (ne_of_gt hx))]
  rw [atan2, if_pos hx]
  norm_num [toDegrees]

theorem deltaHueSmall_zero (c h1 h2 : ℝ) : deltaHueSmall 0 c h1 h2 = 0 := by
  rw [deltaHueSmall]
  exact if_pos (Or.inl rfl)

set_option maxRecDepth 8000 in
theorem ciede2000_pair_gt : 2.3 < ciede2000 ⟨50, 0, 0⟩ ⟨50, 2.2, 0⟩ := by
  have hg0 : (0:ℝ) ≤ gFactor ((0 + 2.2) / 2) := gFactor_nonneg _
  have hg1 : gFactor ((0 + 2.2) / 2) ≤ 1 / 2 := by
    rw [show ((0 : ℝ) + 2.2) / 2 = 1.1 from by norm_num]
    exact gFactor_le_half
  rw [ciede2000]
  dsimp only
  rw [hch0, hch22]
  set g := gFactor ((0 + 2.2) / 2) with hgdef
  clear_value g
  have hz : (0:ℝ) + 0 / 2 * (1 - g) = 0 := by ring
  rw [hz, hch0, hPrime_00]
  set A := (2.2:ℝ) + 2.2 / 2 * (1 - g) with hAdef
  clear_value A
  have hAlo : (2.75:ℝ) ≤ A := by rw [hAdef]; nlinarith
  have hAhi : A ≤ 3.3 := by rw [hAdef]; nlinarith
  have hApos : (0:ℝ) < A := by linarith
  rw [chromaOf_of_nonneg A (le_of_lt hApos), hPrime_x0 A hApos]
  rw [deltaHueSmall_zero]
  rw [zero_mul, Real.sqrt_zero]
  rw [Real.lt_sqrt (by norm_num : (0:ℝ) ≤ 2.3)]
  rw [sub_zero]
  set c := A / (1.0 * (1 + 45e-3 * ((0 + A) / 2))) with hcdef
  clear_value c
  have hc : (2.4:ℝ) ≤ c := by
    rw [hcdef, le_div_iff₀ (by nlinarith)]
    nlinarith
  have e1 : ((50:ℝ) - 50) / (1.0 * (1 + 15e-3 * ((50 + 50) / 2 - 50) ^ (2:ℕ) /
      Real.sqrt (20 + ((50 + 50) / 2 - 50) ^ (2:ℕ)))) = 0 := by
    norm_num
  have e3 : 2 * 0 * Real.sin (toRadians 0 / 2) /
      (1.0 * (1 + 15e-3 * ((0 + A) / 2) * tFactor (hBarPrimeOf 0 0))) = 0 := by
    norm_num
  rw [e1, e3]
  have hsq : 2.4 * 2.4 ≤ c * c :=
    mul_le_mul hc hc (by norm_num) (le_trans (by norm_num) hc)
  nlinarith [hsq]
theorem c2vx_0 : c2vx 0 = 50 := rfl
theorem c2vx_1 : c2vx 1 = 50 := rfl
theorem c2vy_1 : c2vy 1 = 2.2 := rfl

theorem c2colors_length : c2colors.length = 2 := rfl

theorem c2vx_lam : (fun i => (c2colors.getD i zeroPt) 0) = c2vx := rfl

theorem c2vy_lam : (fun i => (c2colors.getD i zeroPt) 1) = c2vy := rfl

theorem c2vx_lam2 : (fun i => (c2colors[i]?.getD zeroPt) 0) = c2vx := by
  funext i
  simp [c2vx, List.getD]

theorem c2vy_lam2 : (fun i => (c2colors[i]?.getD zeroPt) 1) = c2vy := by
  funext i
  simp [c2vy, List.getD]

theorem c2slA : (scanLeft c2vx [0,1] 50 0).1 = 0 := by
  rw [scanLeft_stop _ _ _ _ (by norm_num [c2vx_0])]

theorem c2srA : (scanRight c2vx [0,1] 50 1).1 = 1 := by
  rw [scanRight_stop _ _ _ _
    (by simp only [show ((1:ℤ).toNat) = 1 from rfl]; norm_num [c2vx_1])]

theorem c2hoareA : hoareLoop c2vx 50 [0,1] 0 1 = ([1,0], 0) := by
  rw [hoareLoop_swap _ _ _ _ _ (by norm_num) (by rw [c2slA, c2srA]; norm_num)]
  rw [c2slA, c2srA]
  simp only [show ((1:ℤ).toNat) = 1 from rfl]
  norm_num [listSwap]
  rw [hoareLoop, dif_neg (by norm_num)]

theorem c2partA : partitionByKey c2vx [0,1] = ([1,0], 0) := by
  rw [partitionByKey]
  norm_num [c2vx_1]
  exact c2hoareA

theorem c2findA : findNthIndex 2 c2vx [0,1] 1 = ([1,0], 1) := by
  norm_num [findNthIndex, c2partA]

theorem c2findS1 : findNthIndex 1 c2vy [1] 0 = ([1], 0) := by
  norm_num [findNthIndex]

theorem c2build1 : buildNode 2 3 c2colors [1] 1 = .node 1 1 .nil .nil := by
  rw [show (2 : ℕ) = 1 + 1 from rfl, buildNode]
  norm_num [c2vy_lam, c2vy_lam2]
  rw [c2findS1]
  norm_num [buildNode_nil]

theorem c2build0 : buildNode 3 3 c2colors [0,1] 0 =
    KDT.node 0 0 (.node 1 1 .nil .nil) .nil := by
  rw [show (3 : ℕ) = 2 + 1 from rfl, buildNode]
  norm_num [c2vx_lam, c2vx_lam2]
  rw [c2findA]
  norm_num [c2build1, buildNode_nil]

theorem kdBuild_c2 : kdBuild 3 c2colors =
    KDT.node 0 0 (.node 1 1 .nil .nil) .nil := by
  rw [kdBuild, c2colors_length]
  norm_num [List.range_succ]
  exact c2build0

theorem c2get0 : c2colors.getD 0 zeroPt = mkPt3 50 0 0 := rfl
theorem c2get1 : c2colors.getD 1 zeroPt = mkPt3 50 2.2 0 := rfl
theorem c2getE0 : c2colors[(0:ℕ)]?.getD zeroPt = mkPt3 50 0 0 := rfl
theorem c2getE1 : c2colors[(1:ℕ)]?.getD zeroPt = mkPt3 50 2.2 0 := rfl

theorem c2measure (a b c d e f : ℝ) :
    DistanceMetric.measure .euclidean 3 (mkPt3 a b c) (mkPt3 d e f) =
      Real.sqrt ((a - d) ^ (2 : ℕ) + (b - e) ^ (2 : ℕ) + (c - f) ^ (2 : ℕ)) := by
  rw [DistanceMetric.measure]
  rw [squaredEuclidean]
  rw [Finset.sum_range_succ, Finset.sum_range_succ, Finset.sum_range_succ,
    Finset.sum_range_zero]
  norm_num [mkPt3_zero, mkPt3_one, mkPt3_two]

theorem c2ee00 :
    DistanceMetric.measure .euclidean 3 (mkPt3 50 0 0) (mkPt3 50 0 0) = 0 := by
  rw [c2measure]
  norm_num

theorem c2ee11 :
    DistanceMetric.measure .euclidean 3 (mkPt3 50 (11/5) 0)
      (mkPt3 50 (11/5) 0) = 0 := by
  rw [c2measure]
  norm_num

theorem c2ee01 :
    DistanceMetric.measure .euclidean 3 (mkPt3 50 0 0) (mkPt3 50 (11/5) 0) =
      11/5 := by
  rw [c2measure]
  rw [show ((50:ℝ) - 50) ^ (2:ℕ) + ((0:ℝ) - 11/5) ^ (2:ℕ) +
    ((0:ℝ) - 0) ^ (2:ℕ) = ((11:ℝ)/5) ^ 2 from by norm_num]
  exact Real.sqrt_sq (by norm_num)

theorem c2ee10 :
    DistanceMetric.measure .euclidean 3 (mkPt3 50 (11/5) 0) (mkPt3 50 0 0) =
      11/5 := by
  rw [c2measure]
  rw [show ((50:ℝ) - 50) ^ (2:ℕ) + ((11:ℝ)/5 - 0) ^ (2:ℕ) +
    ((0:ℝ) - 0) ^ (2:ℕ) = ((11:ℝ)/5) ^ 2 from by norm_num]
  exact Real.sqrt_sq (by norm_num)

theorem c2sd00 : ciede2000Dist (mkPt3 50 0 0) (mkPt3 50 0 0) = 0 := by
  rw [show ciede2000Dist (mkPt3 50 0 0) (mkPt3 50 0 0) =
    ciede2000 ⟨50, 0, 0⟩ ⟨50, 0, 0⟩ from rfl]
  exact ciede2000_self _

theorem c2sd11 : ciede2000Dist (mkPt3 50 (11/5) 0) (mkPt3 50 (11/5) 0) = 0 := by
  rw [show ciede2000Dist (mkPt3 50 (11/5) 0) (mkPt3 50 (11/5) 0) =
    ciede2000 ⟨50, 11/5, 0⟩ ⟨50, 11/5, 0⟩ from rfl]
  exact ciede2000_self _

theorem c2sdn01 : ¬ ciede2000Dist (mkPt3 50 0 0) (mkPt3 50 (11/5) 0) ≤ 23/10 := by
  rw [show ((11:ℝ)/5) = 2.2 from by norm_num]
  rw [show ((23:ℝ)/10) = 2.3 from by norm_num]
  rw [show ciede2000Dist (mkPt3 50 0 0) (mkPt3 50 2.2 0) =
    ciede2000 ⟨50, 0, 0⟩ ⟨50, 2.2, 0⟩ from rfl]
  exact not_le.mpr ciede2000_pair_gt

theorem c2sdn10 : ¬ ciede2000Dist (mkPt3 50 (11/5) 0) (mkPt3 50 0 0) ≤ 23/10 := by
  rw [show ((11:ℝ)/5) = 2.2 from by norm_num]
  rw [show ((23:ℝ)/10) = 2.3 from by norm_num]
  rw [show ciede2000Dist (mkPt3 50 2.2 0) (mkPt3 50 0 0) =
    ciede2000 ⟨50, 2.2, 0⟩ ⟨50, 0, 0⟩ from rfl]
  rw [ciede2000_comm]
  exact not_le.mpr ciede2000_pair_gt

theorem c2Erad0 :
    kdSearchRadius c2colors (DistanceMetric.measure .euclidean 3)
      (KDT.node 0 0 (.node 1 1 .nil .nil) .nil) (mkPt3 50 0 0) (23/10) =
      [⟨0, 0⟩, ⟨1, 2.2⟩] := by
  rw [kdSearchRadius]
  norm_num [kdSearchRadiusRec, c2get0, c2get1, c2getE0, c2getE1,
    c2ee00, c2ee10, mkPt3_zero, mkPt3_one, abs_of_nonneg, abs_of_nonpos]

theorem c2Erad1 :
    kdSearchRadius c2colors (DistanceMetric.measure .euclidean 3)
      (KDT.node 0 0 (.node 1 1 .nil .nil) .nil) (mkPt3 50 2.2 0) (23/10) =
      [⟨0, 2.2⟩, ⟨1, 0⟩] := by
  rw [kdSearchRadius]
  norm_num [kdSearchRadiusRec, c2get0, c2get1, c2getE0, c2getE1,
    c2ee01, c2ee11, mkPt3_zero, mkPt3_one, abs_of_nonneg, abs_of_nonpos]

theorem c2Srad0 :
    kdSearchRadius c2colors ciede2000Dist
      (KDT.node 0 0 (.node 1 1 .nil .nil) .nil) (mkPt3 50 0 0) (23/10) =
      [⟨0, 0⟩] := by
  rw [kdSearchRadius]
  norm_num [kdSearchRadiusRec, c2get0, c2get1, c2getE0, c2getE1,
    c2sd00, c2sdn10, mkPt3_zero, mkPt3_one, abs_of_nonneg, abs_of_nonpos]

theorem c2Srad1 :
    kdSearchRadius c2colors ciede2000Dist
      (KDT.node 0 0 (.node 1 1 .nil .nil) .nil) (mkPt3 50 2.2 0) (23/10) =
      [⟨1, 0⟩] := by
  rw [kdSearchRadius]
  norm_num [kdSearchRadiusRec, c2get0, c2get1, c2getE0, c2getE1,
    c2sd11, c2sdn01, mkPt3_zero, mkPt3_one, abs_of_nonneg, abs_of_nonpos]

theorem c2EradD0 :
    kdSearchRadius c2colors (DistanceMetric.measure .euclidean 3)
      (KDT.node 0 0 (.node 1 1 .nil .nil) .nil) (c2colors.getD 0 zeroPt) (23/10) =
      [⟨0, 0⟩, ⟨1, 2.2⟩] := by
  rw [c2get0]; exact c2Erad0

theorem c2EradD1 :
    kdSearchRadius c2colors (DistanceMetric.measure .euclidean 3)
      (KDT.node 0 0 (.node 1 1 .nil .nil) .nil) (c2colors.getD 1 zeroPt) (23/10) =
      [⟨0, 2.2⟩, ⟨1, 0⟩] := by
  rw [c2get1]; exact c2Erad1

theorem c2SradD0 :
    kdSearchRadius c2colors ciede2000Dist
      (KDT.node 0 0 (.node 1 1 .nil .nil) .nil) (c2colors.getD 0 zeroPt) (23/10) =
      [⟨0, 0⟩] := by
  rw [c2get0]; exact c2Srad0

theorem c2SradD1 :
    kdSearchRadius c2colors ciede2000Dist
      (KDT.node 0 0 (.node 1 1 .nil .nil) .nil) (c2colors.getD 1 zeroPt) (23/10) =
      [⟨1, 0⟩] := by
  rw [c2get1]; exact c2Srad1

set_option maxRecDepth 8000 in
theorem dbscan_c2_main_eucl :
    dbscanMainLoop 3 c2colors (DistanceMetric.measure .euclidean 3)
      (23/10) 1 (KDT.node 0 0 (.node 1 1 .nil .nil) .nil) [0, 1]
      ([.undefined, .undefined], 0) =
      ([.assigned 0, .assigned 0], 1) := by
  rw [dbscanMainLoop]
  rw [if_neg (by decide)]
  dsimp only
  rw [c2EradD0]
  rw [if_neg (by norm_num)]
  rw [expandCluster, c2colors_length]
  norm_num [dbscanQueueStep, Label.isAssigned, Label.isOutlier, Label.isUndefined]
  rw [show (12 : ℕ) = 11 + 1 from rfl]
  rw [expandLoop]
  rw [c2EradD0]
  norm_num [dbscanQueueStep, Label.isAssigned, Label.isOutlier, Label.isUndefined]
  rw [show (11 : ℕ) = 10 + 1 from rfl]
  rw [expandLoop]
  rw [c2EradD1]
  norm_num [dbscanQueueStep, Label.isAssigned, Label.isOutlier, Label.isUndefined]
  rw [show (10 : ℕ) = 9 + 1 from rfl]
  rw [expandLoop]
  rw [dbscanMainLoop]
  rw [if_pos (by decide)]
  rw [dbscanMainLoop]

set_option maxRecDepth 8000 in
theorem dbscan_c2_main_spec :
    dbscanMainLoop 3 c2colors ciede2000Dist (23/10) 1
      (KDT.node 0 0 (.node 1 1 .nil .nil) .nil) [0, 1]
      ([.undefined, .undefined], 0) =
      ([.assigned 0, .assigned 1], 2) := by
  rw [dbscanMainLoop]
  rw [if_neg (by decide)]
  dsimp only
  rw [c2SradD0]
  rw [if_neg (by norm_num)]
  rw [expandCluster, c2colors_length]
  norm_num [dbscanQueueStep, Label.isAssigned, Label.isOutlier, Label.isUndefined]
  rw [show (12 : ℕ) = 11 + 1 from rfl]
  rw [expandLoop]
  rw [c2SradD0]
  norm_num [dbscanQueueStep, Label.isAssigned, Label.isOutlier, Label.isUndefined]
  rw [show (11 : ℕ) = 10 + 1 from rfl]
  rw [expandLoop]
  rw [dbscanMainLoop]
  rw [if_neg (by decide)]
  dsimp only
  rw [c2SradD1]
  rw [if_neg (by norm_num)]
  rw [expandCluster, c2colors_length]
  norm_num [dbscanQueueStep, Label.isAssigned, Label.isOutlier, Label.isUndefined]
  rw [show (12 : ℕ) = 11 + 1 from rfl]
  rw [expandLoop]
  rw [c2SradD1]
  norm_num [dbscanQueueStep, Label.isAssigned, Label.isOutlier, Label.isUndefined]
  rw [show (11 : ℕ) = 10 + 1 from rfl]
  rw [expandLoop]
  rw [dbscanMainLoop]

set_option maxRecDepth 8000 in
theorem stagec_c2_eval :
    ((stageC c2colors).1).map Cluster.membership = [[0, 1]] ∧
    (stageC c2colors).2 = [] := by
  have h1 : c2colors.isEmpty = false := rfl
  have hm := dbscan_c2_main_eucl
  constructor
  all_goals
    rw [show stageC c2colors =
      dbscanFit 3 (DistanceMetric.measure .euclidean 3) 1 2.3 c2colors from rfl]
    simp only [dbscanFit, h1, Bool.false_eq_true, if_false]
    rw [kdBuild_c2, c2colors_length]
    norm_num [List.replicate, List.range_succ]
    rw [hm]
    norm_num [List.range_succ, clusterOfId_membership, Cluster.isEmpty,
      c2colors_length]
    try decide

set_option maxRecDepth 8000 in
theorem specstagec_c2_eval :
    ((specStageC c2colors).1).map Cluster.membership = [[0], [1]] ∧
    (specStageC c2colors).2 = [] := by
  have h1 : c2colors.isEmpty = false := rfl
  have hm := dbscan_c2_main_spec
  constructor
  all_goals
    rw [show specStageC c2colors =
      dbscanFit 3 ciede2000Dist 1 2.3 c2colors from rfl]
    simp only [dbscanFit, h1, Bool.false_eq_true, if_false]
    rw [kdBuild_c2, c2colors_length]
    norm_num [List.replicate, List.range_succ]
    rw [hm]
    norm_num [List.range_succ, clusterOfId_membership, Cluster.isEmpty,
      c2colors_length]
    try decide

/-- Claim C2 (corrected): stage C does run DBSCAN with `min_samples = 1` and
radius 2.3 on the candidates' 3-D Lab colors, but the radius is measured
under the Euclidean metric, not CIEDE2000: `extract_with_algorithm` passes
`DistanceMetric::Euclidean`.  On the two Lab colors (50,0,0) and (50,2.2,0)
the Euclidean distance 2.2 is within the radius while the CIEDE2000
difference exceeds 2.3, and the code merges them into one cluster. -/
theorem stageC_uses_euclidean :
    (∀ colors : List Pt,
        stageC colors =
          dbscanFit 3 (DistanceMetric.measure .euclidean 3) 1 2.3 colors) ∧
    DistanceMetric.measure .euclidean 3 (mkPt3 50 0 0) (mkPt3 50 2.2 0) ≤ 2.3 ∧
    2.3 < ciede2000Dist (mkPt3 50 0 0) (mkPt3 50 2.2 0) ∧
    ((stageC c2colors).1).map Cluster.membership = [[0, 1]] := by
  refine ⟨fun colors => rfl, ?_, ?_, stagec_c2_eval.1⟩
  · rw [show (2.2:ℝ) = 11/5 from by norm_num, c2ee01]
    norm_num
  · rw [show ciede2000Dist (mkPt3 50 0 0) (mkPt3 50 2.2 0) =
      ciede2000 ⟨50, 0, 0⟩ ⟨50, 2.2, 0⟩ from rfl]
    exact ciede2000_pair_gt

/-- Claim C2 counterexample: on the two-color list `c2colors` the code's
stage C (Euclidean radius 2.3) merges the two colors into a single cluster,
while the spec's stage C (CIEDE2000 radius 2.3, the definition
`specStageC` modelled from the spec) keeps them apart, so the two stages
disagree. -/
theorem stageC_not_ciede2000 :
    ((stageC c2colors).1).map Cluster.membership = [[0, 1]] ∧
    ((specStageC c2colors).1).map Cluster.membership = [[0], [1]] ∧
    stageC c2colors ≠ specStageC c2colors := by
  refine ⟨stagec_c2_eval.1, specstagec_c2_eval.1, fun h => ?_⟩
  have h2 := congrArg
    (fun x : List (Cluster ℝ Pt) × List ℕ => (x.1).map Cluster.membership) h
  simp only [] at h2
  rw [stagec_c2_eval.1, specstagec_c2_eval.1] at h2
  exact absurd h2 (by decide)


/-! ## Palette swatch ranking (claim C5) -/

theorem mem_insertSwatchPopDesc (s b : Swatch) (l : List Swatch) :
    b ∈ insertSwatchPopDesc s l ↔ b = s ∨ b ∈ l := by
  induction l with
  | nil => simp [insertSwatchPopDesc]
  | cons t ts ih =>
    simp only [insertSwatchPopDesc]
    by_cases h : s.population > t.population
    · rw [if_pos h]; simp [or_comm, or_assoc, or_left_comm]
    · rw [if_neg h]
      simp only [List.mem_cons, ih]
      tauto

theorem insertSwatchPopDesc_length (s : Swatch) (l : List Swatch) :
    (insertSwatchPopDesc s l).length = l.length + 1 := by
  induction l with
  | nil => rfl
  | cons t ts ih =>
    simp only [insertSwatchPopDesc]
    by_cases h : s.population > t.population
    · rw [if_pos h]; simp
    · rw [if_neg h]; simp [ih]

theorem sortSwatchesPopDesc_length (l : List Swatch) :
    (sortSwatchesPopDesc l).length = l.length := by
  induction l with
  | nil => rfl
  | cons s ss ih => simp [sortSwatchesPopDesc, insertSwatchPopDesc_length, ih]

theorem insertSwatchPopDesc_sorted (s : Swatch) (l : List Swatch)
    (h : List.Pairwise (fun a b : Swatch => b.population ≤ a.population) l) :
    List.Pairwise (fun a b : Swatch => b.population ≤ a.population)
      (insertSwatchPopDesc s l) := by
  induction l with
  | nil => simp [insertSwatchPopDesc]
  | cons t ts ih =>
    obtain ⟨ht, hts⟩ := List.pairwise_cons.mp h
    simp only [insertSwatchPopDesc]
    by_cases hgt : s.population > t.population
    · rw [if_pos hgt]
      refine List.pairwise_cons.mpr ⟨?_, h⟩
      intro b hb
      rcases List.mem_cons.mp hb with rfl | hb'
      · omega
      · have := ht b hb'; omega
    · rw [if_neg hgt]
      refine List.pairwise_cons.mpr ⟨?_, ih hts⟩
      intro b hb
      rcases (mem_insertSwatchPopDesc s b ts).mp hb with rfl | hb'
      · omega
      · exact ht b hb'

theorem sortSwatchesPopDesc_sorted (l : List Swatch) :
    List.Pairwise (fun a b : Swatch => b.population ≤ a.population)
      (sortSwatchesPopDesc l) := by
  induction l with
  | nil => simp [sortSwatchesPopDesc]
  | cons s ss ih => exact insertSwatchPopDesc_sorted s _ ih

theorem mem_insertSwatchScoreDesc (w : Swatch → ℝ) (s b : Swatch)
    (l : List Swatch) :
    b ∈ insertSwatchScoreDesc w s l ↔ b = s ∨ b ∈ l := by
  induction l with
  | nil => simp [insertSwatchScoreDesc]
  | cons t ts ih =>
    simp only [insertSwatchScoreDesc]
    by_cases h : w s > w t
    · rw [if_pos h]; simp [or_comm, or_assoc, or_left_comm]
    · rw [if_neg h]
      simp only [List.mem_cons, ih]
      tauto

theorem insertSwatchScoreDesc_length (w : Swatch → ℝ) (s : Swatch)
    (l : List Swatch) :
    (insertSwatchScoreDesc w s l).length = l.length + 1 := by
  induction l with
  | nil => rfl
  | cons t ts ih =>
    simp only [insertSwatchScoreDesc]
    by_cases h : w s > w t
    · rw [if_pos h]; simp
    · rw [if_neg h]; simp [ih]

theorem sortSwatchesScoreDesc_length (w : Swatch → ℝ) (l : List Swatch) :
    (sortSwatchesScoreDesc w l).length = l.length := by
  induction l with
  | nil => rfl
  | cons s ss ih =>
    simp [sortSwatchesScoreDesc, insertSwatchScoreDesc_length, ih]

theorem insertSwatchScoreDesc_sorted (w : Swatch → ℝ) (s : Swatch)
    (l : List Swatch)
    (h : List.Pairwise (fun a b : Swatch => w b ≤ w a) l) :
    List.Pairwise (fun a b : Swatch => w b ≤ w a)
      (insertSwatchScoreDesc w s l) := by
  induction l with
  | nil => simp [insertSwatchScoreDesc]
  | cons t ts ih =>
    obtain ⟨ht, hts⟩ := List.pairwise_cons.mp h
    simp only [insertSwatchScoreDesc]
    by_cases hgt : w s > w t
    · rw [if_pos hgt]
      refine List.pairwise_cons.mpr ⟨?_, h⟩
      intro b hb
      rcases List.mem_cons.mp hb with rfl | hb'
      · exact le_of_lt hgt
      · exact le_trans (ht b hb') (le_of_lt hgt)
    · rw [if_neg hgt]
      refine List.pairwise_cons.mpr ⟨?_, ih hts⟩
      intro b hb
      rcases (mem_insertSwatchScoreDesc w s b ts).mp hb with rfl | hb'
      · exact not_lt.mp hgt
      · exact ht b hb'

theorem sortSwatchesScoreDesc_sorted (w : Swatch → ℝ) (l : List Swatch) :
    List.Pairwise (fun a b : Swatch => w b ≤ w a)
      (sortSwatchesScoreDesc w l) := by
  induction l with
  | nil => simp [sortSwatchesScoreDesc]
  | cons s ss ih => exact insertSwatchScoreDesc_sorted w s _ ih

theorem ciede2000_gray_pos : 0 < ciede2000 ⟨0, 0, 0⟩ ⟨50, 0, 0⟩ := by
  norm_num [ciede2000, chromaOf, gFactor, hPrime, deltaHueSmall,
    hBarPrimeOf, rtFactor]
  positivity

theorem swatch_distance_pos :
    0 < Swatch.distance ⟨⟨0, 0, 0⟩, (0, 0), 2⟩ ⟨⟨50, 0, 0⟩, (1, 1), 1⟩ := by
  have h : Swatch.distance ⟨⟨0, 0, 0⟩, (0, 0), 2⟩ ⟨⟨50, 0, 0⟩, (1, 1), 1⟩ =
      ciede2000 ⟨0, 0, 0⟩ ⟨50, 0, 0⟩ := by
    simp only [Swatch.distance, Color.difference, DeltaE.measure, Color.toLab,
      Lab.new]
    norm_num [clampF]
  rw [h]
  exact ciede2000_gray_pos

theorem fitWithLinkage_two :
    fitWithLinkage twoSwatchPalette.swatches
        (CompleteLinkage.new twoSwatchPalette.swatches Swatch.distance) =
      [⟨0, none, none, 0⟩, ⟨1, none, none, 0⟩,
        ⟨2, some 0, some 1,
          Swatch.distance ⟨⟨0, 0, 0⟩, (0, 0), 2⟩ ⟨⟨50, 0, 0⟩, (1, 1), 1⟩⟩] := by
  norm_num [twoSwatchPalette, fitWithLinkage, hierLoop, popFirstMinBy,
    CompleteLinkage.new, CompleteLinkage.distance, CompleteLinkage.merge,
    DistanceMatrix.new, DistanceMatrix.get, DistanceMatrix.set,
    DistanceMatrix.index, List.range_succ]

/-- Claim C5 amended: whenever the complete-linkage dendrogram over the
palette's swatches is well formed with positive merge distances and the
request size satisfies `1 ≤ n ≤ len` (in particular `n = len`, the number
of distinct swatches), `swatches` returns exactly `n` swatches sorted
descending by population and `swatches_with_theme` returns exactly `n`
swatches sorted descending by theme weight. (For `n > len` the original
claim fails: `partition` duplicates leaves, so `swatches` returns more than
`len` entries with duplicates, as the counterexample shows.) -/
theorem palette_swatches_exact_count (p : Palette) (n : ℕ) (th : Theme)
    (hwf : DendroWF (fitWithLinkage p.swatches
      (CompleteLinkage.new p.swatches Swatch.distance)) p.len)
    (hpos : ∀ i, p.len ≤ i →
      i < (fitWithLinkage p.swatches
        (CompleteLinkage.new p.swatches Swatch.distance)).length →
      0 < ((fitWithLinkage p.swatches
        (CompleteLinkage.new p.swatches Swatch.distance)).getD i
          default).distance)
    (h1 : 1 ≤ n) (hn : n ≤ p.len) :
    (p.swatchesN n).length = n ∧
    List.Pairwise (fun a b : Swatch => b.population ≤ a.population)
      (p.swatchesN n) ∧
    (p.swatchesWithTheme n th).length = n ∧
    List.Pairwise (fun a b : Swatch => th.weight b ≤ th.weight a)
      (p.swatchesWithTheme n th) := by
  have hlen : n ≤ p.swatches.length := hn
  have hne : p.swatches.isEmpty = false := by
    rw [List.isEmpty_eq_false_iff_exists_mem]
    cases hsw : p.swatches with
    | nil => rw [hsw] at hlen; simp at hlen; omega
    | cons a as => exact ⟨a, by simp⟩
  have hfs : ∀ f : Swatch → ℝ, (p.findSwatches n f).length = n := by
    intro f
    simp only [Palette.findSwatches]
    rw [List.length_map]
    exact (partition_spec_of_wf _ p.len n hwf hpos h1 hn).1
  refine ⟨?_, ?_, ?_, ?_⟩
  · simp only [Palette.swatchesN, hne, Bool.false_eq_true, if_false]
    rw [sortSwatchesPopDesc_length, hfs]
  · simp only [Palette.swatchesN, hne, Bool.false_eq_true, if_false]
    exact sortSwatchesPopDesc_sorted _
  · simp only [Palette.swatchesWithTheme, hne, Bool.false_eq_true, if_false]
    rw [List.length_take, sortSwatchesScoreDesc_length, hfs]
    omega
  · simp only [Palette.swatchesWithTheme, hne, Bool.false_eq_true, if_false]
    exact List.Pairwise.sublist (List.take_sublist _ _)
      (sortSwatchesScoreDesc_sorted _ _)

theorem palette_swatches_exact_count_witness :
    (twoSwatchPalette.swatchesN 2).length = 2 ∧
    List.Pairwise (fun a b : Swatch => b.population ≤ a.population)
      (twoSwatchPalette.swatchesN 2) ∧
    (twoSwatchPalette.swatchesWithTheme 2 Theme.vivid).length = 2 ∧
    List.Pairwise (fun a b : Swatch =>
        Theme.vivid.weight b ≤ Theme.vivid.weight a)
      (twoSwatchPalette.swatchesWithTheme 2 Theme.vivid) := by
  apply palette_swatches_exact_count twoSwatchPalette 2 Theme.vivid
  · rw [fitWithLinkage_two]
    exact dendroWF_pairLike _
  · intro i h2 h3
    rw [fitWithLinkage_two] at h3
    simp only [List.length_cons, List.length_nil] at h3
    simp only [Palette.len, twoSwatchPalette, List.length_cons,
      List.length_nil] at h2
    interval_cases i
    rw [fitWithLinkage_two]
    exact swatch_distance_pos
  · omega
  · simp [Palette.len, twoSwatchPalette]

/-- Counterexample to claim C5: a palette of two distinct swatches asked
for 3 swatches returns 3 entries — the most populous swatch duplicated —
rather than the 2 distinct swatches the claim promises for every
`n ≥` distinct count. -/
theorem palette_swatchesN_duplicates :
    twoSwatchPalette.len = 2 ∧
    twoSwatchPalette.swatchesN 3 =
      [⟨⟨0, 0, 0⟩, (0, 0), 2⟩, ⟨⟨0, 0, 0⟩, (0, 0), 2⟩,
        ⟨⟨50, 0, 0⟩, (1, 1), 1⟩] ∧
    (twoSwatchPalette.swatchesN 3).length ≠ twoSwatchPalette.len := by
  have heval : twoSwatchPalette.swatchesN 3 =
      [⟨⟨0, 0, 0⟩, (0, 0), 2⟩, ⟨⟨0, 0, 0⟩, (0, 0), 2⟩,
        ⟨⟨50, 0, 0⟩, (1, 1), 1⟩] := by
    simp only [Palette.swatchesN, Palette.findSwatches]
    rw [fitWithLinkage_two]
    norm_num [twoSwatchPalette, Dendrogram.partition, partLoop,
      popFirstMaxBy, findSwatch, sortSwatchesPopDesc, insertSwatchPopDesc]
  refine ⟨rfl, heval, ?_⟩
  rw [heval]
  simp [Palette.len, twoSwatchPalette]

/-- Counterexample to claim C4: the dendrogram of two leaves merged once is
well formed with `leaf_count = 2`, yet `partition 3` returns 3 groups, not
`min 3 2 = 2` — the loop pushes the popped leaf node `0` into the
membership twice. -/
theorem dendrogram_partition_overcount :
    DendroWF pairDendrogram 2 ∧
      Dendrogram.partition pairDendrogram 3 =
        [⟨0, none, none, 0⟩, ⟨0, none, none, 0⟩, ⟨1, none, none, 0⟩] ∧
      (Dendrogram.partition pairDendrogram 3).length ≠ min 3 2 := by
  have heval : Dendrogram.partition pairDendrogram 3 =
      [⟨0, none, none, 0⟩, ⟨0, none, none, 0⟩, ⟨1, none, none, 0⟩] := by
    norm_num [Dendrogram.partition, pairDendrogram, partLoop, popFirstMaxBy]
  refine ⟨dendroWF_pair, heval, ?_⟩
  rw [heval]
  simp

end ColorLook
